import Mathlib

/-! # MCP9808 temperature-sensor driver

A shallow embedding of `src/mcp9808.go` (package `mcp9808`) and the properties of its
construction sequence and temperature decode.

Conventions of the embedding.

* A Go `byte` is a `Fin 256`, a Go `uint16` is a `Fin 65536`.
* The I²C bus is an arbitrary state machine: `i2c.Bus.Tx` maps the bus state, the target
  address, the outbound bytes and the current contents of the read buffer to the next bus
  state, the Go `error` (`none` is `nil`) and the bytes the bus stored into the read buffer.
* Stateful code passes a `World` explicitly: the bus state and the log of every transaction
  issued so far, each with its outcome.
* A Go run-time panic (nil interface call, slice index out of range, `log.Panic`) is the
  outer `none` of a method's result.
* `float64` results are given as exact rationals.  Every value `Temp` computes is
  `± n * 0.0625` with `n < 2 ^ 13`; the conversion of such an `n`, the negation and the
  product with `2 ^ (-4)` are all exact in binary64, so the rational is the value of the float.
-/

namespace mcp9808

/-- A Go `byte`. -/
abbrev Byte := Fin 256

/-- A Go `uint16`. -/
abbrev Word := Fin 65536

/-- One bus transaction as seen on the wire: target address, outbound bytes, and the
length of the read buffer (`0` for the `nil` buffer of a write-only transaction). -/
structure Transaction where
  addr : Word
  w : List Byte
  rlen : Nat
  deriving DecidableEq, Repr

/-- A logged transaction with the error the transport returned for it. -/
structure Event (ε : Type) where
  txn : Transaction
  err : Option ε
  deriving DecidableEq, Repr

/-- Go `copy(dst, src)`: the first `min (len dst) (len src)` bytes of `dst` are overwritten,
the length of `dst` never changes. -/
def copyBytes (dst src : List Byte) : List Byte :=
  (src ++ dst.drop src.length).take dst.length

namespace i2c

/-- The transport, `periph.io/x/periph/conn/i2c.Bus`: `Tx(addr uint16, w, r []byte) error`.
The result is the next bus state, the error, and the bytes stored into `r`. -/
structure Bus (σ ε : Type) where
  Tx : σ → Word → List Byte → List Byte → σ × Option ε × List Byte

/-- The bound connection `i2c.Dev{Bus: b, Addr: a}`. -/
structure Dev (σ ε : Type) where
  Bus : Bus σ ε
  Addr : Word

end i2c

/-- The bus state together with the log of the transactions issued on it. -/
structure World (σ ε : Type) where
  bus : σ
  log : List (Event ε)

/-- Method `(*i2c.Dev).Tx(w, r)`: forwards to `Bus.Tx(Addr, w, r)`.  Returns the new world, the
error and the read buffer after the call. -/
def i2c.Dev.Tx {σ ε : Type} (d : i2c.Dev σ ε) (w r : List Byte) (s : World σ ε) :
    World σ ε × Option ε × List Byte :=
  match d.Bus.Tx s.bus d.Addr w r with
  | (st, err, got) =>
    (⟨st, s.log ++ [⟨⟨d.Addr, w, r.length⟩, err⟩]⟩, err, copyBytes r got)

/-- A Go `error` value the driver can return: one handed over by the transport, or the
driver's own `errors.New("part does not match driver")`. -/
inductive Error (ε : Type) where
  | transport (e : ε)
  | partDoesNotMatchDriver
  deriving DecidableEq, Repr

/-- The handle `type MCP9808 struct`.  The interface field `d` is `nil` until `New` binds it. -/
structure MCP9808 (σ ε : Type) where
  address : Word
  d : Option (i2c.Dev σ ε)
  mfgID : Word
  id : Word
  Temperature : ℚ

def MCP9808_I2CADDR_DEFAULT : Byte := 0x18
def MCP9808_REG_CONFIG : Byte := 0x01
def MCP9808_REG_AMBIENT_TEMP : Byte := 0x05
def MCP9808_REG_MANUF_ID : Byte := 0x06
def MCP9808_REG_DEVICE_ID : Byte := 0x07
def MCP9808_REG_RESOLUTION : Byte := 0x08

/-- Go `binary.BigEndian.Uint16(b)`: `uint16(b[1]) | uint16(b[0])<<8`, panicking when
`b` has fewer than two bytes. -/
def BigEndian.Uint16 : List Byte → Option Word
  | hi :: lo :: _ => some (Fin.ofNat ((lo.val ||| (hi.val <<< 8)) % 65536))
  | _ => none

/-- The zero value `new(MCP9808)`. -/
def MCP9808.zero {σ ε : Type} : MCP9808 σ ε :=
  { address := 0, d := none, mfgID := 0, id := 0, Temperature := 0 }

/-- Go `func (m *MCP9808) setAddress(address uint16) error`. -/
def MCP9808.setAddress {σ ε : Type} (m : MCP9808 σ ε) (address : Word) :
    MCP9808 σ ε × Option (Error ε) :=
  ({ m with address := address }, none)

/-- Go `func Address(address uint16) func(*MCP9808) error`. -/
def Address {σ ε : Type} (address : Word) : MCP9808 σ ε → MCP9808 σ ε × Option (Error ε) :=
  fun m => m.setAddress address

/-- Go `func (m *MCP9808) writeReg(register byte, w []byte) error`. -/
def MCP9808.writeReg {σ ε : Type} (m : MCP9808 σ ε) (register : Byte) (w : List Byte)
    (s : World σ ε) : Option (World σ ε × Option (Error ε)) :=
  match m.d with
  | none => none
  | some d =>
    let buf := [register] ++ w
    match d.Tx buf [] s with
    | (s1, err, _) => some (s1, err.map Error.transport)

/-- Go `func (m *MCP9808) readReg(register byte, r []byte) error`; the buffer `r` after the
call is returned next to the error. -/
def MCP9808.readReg {σ ε : Type} (m : MCP9808 σ ε) (register : Byte) (r : List Byte)
    (s : World σ ε) : Option (World σ ε × Option (Error ε) × List Byte) :=
  match m.d with
  | none => none
  | some d =>
    match d.Tx [register] r s with
    | (s1, err, r1) => some (s1, err.map Error.transport, r1)

/-- Go `func (m *MCP9808) init() error`.  The handle is returned with the error because the
receiver is a pointer whose fields `mfgID` and `id` are assigned on the way. -/
def MCP9808.init {σ ε : Type} (m : MCP9808 σ ε) (s : World σ ε) :
    Option (World σ ε × MCP9808 σ ε × Option (Error ε)) :=
  let rx : List Byte := List.replicate 2 0
  match m.readReg MCP9808_REG_MANUF_ID rx s with
  | none => none
  | some (s, some err, _) => some (s, m, some err)
  | some (s, none, rx) =>
    match BigEndian.Uint16 rx with
    | none => none
    | some v =>
      let m := { m with mfgID := v }
      if m.mfgID ≠ 0x0054 then some (s, m, some Error.partDoesNotMatchDriver) else
      match m.readReg MCP9808_REG_DEVICE_ID rx s with
      | none => none
      | some (s, some err, _) => some (s, m, some err)
      | some (s, none, rx) =>
        match BigEndian.Uint16 rx with
        | none => none
        | some v =>
          let m := { m with id := v }
          if m.id ≠ 0x0400 then some (s, m, some Error.partDoesNotMatchDriver) else
          match m.writeReg MCP9808_REG_CONFIG [0x00, 0x00] s with
          | none => none
          | some (s, some err) => some (s, m, some err)
          | some (s, none) =>
            match m.writeReg MCP9808_REG_RESOLUTION [0x03] s with
            | none => none
            | some (s, some err) => some (s, m, some err)
            | some (s, none) => some (s, m, none)

/-- The loop `for _, option := range opts { option(mcp) }` of `New`: every option is
applied in order and the error it returns is dropped. -/
def applyOpts {σ ε : Type} :
    List (MCP9808 σ ε → MCP9808 σ ε × Option (Error ε)) → MCP9808 σ ε → MCP9808 σ ε
  | [], mcp => mcp
  | option :: opts, mcp => applyOpts opts (option mcp).1

/-- Go `func New(b i2c.Bus, opts ...func(*MCP9808) error) (*MCP9808, error)`.  The result
is Go's pair: the handle pointer (`none` is `nil`) and the error (`none` is `nil`). -/
def New {σ ε : Type} (b : i2c.Bus σ ε)
    (opts : List (MCP9808 σ ε → MCP9808 σ ε × Option (Error ε))) (s : World σ ε) :
    Option (World σ ε × Option (MCP9808 σ ε) × Option (Error ε)) :=
  let mcp : MCP9808 σ ε := MCP9808.zero
  let mcp := { mcp with address := Fin.ofNat MCP9808_I2CADDR_DEFAULT.val }
  let mcp := applyOpts opts mcp
  let err : Option (Error ε) := none
  let mcp := { mcp with d := some { Bus := b, Addr := mcp.address } }
  if err.isSome then none else
  match mcp.init s with
  | none => none
  | some (s, _, some err) => some (s, none, some err)
  | some (s, mcp, none) => some (s, some mcp, none)

/-- The arithmetic of `Temp` after the register read (lines 114-120): mask to 13 bits,
test the sign bit, scale the 12-bit magnitude by `0.0625`. -/
def decode (traw : Nat) : ℚ :=
  let traw := traw &&& 0x1FFF
  if traw &&& 0x1000 = 0x1000 then
    let traw := traw &&& 0x0FFF;
    -(traw : ℚ) * 0.0625
  else
    (traw : ℚ) * 0.0625

/-- Go `func (m *MCP9808) Temp() (float64, error)`. -/
def MCP9808.Temp {σ ε : Type} (m : MCP9808 σ ε) (s : World σ ε) :
    Option (World σ ε × MCP9808 σ ε × ℚ × Option (Error ε)) :=
  let rx : List Byte := List.replicate 2 0
  match m.readReg MCP9808_REG_AMBIENT_TEMP rx s with
  | none => none
  | some (s, some err, _) => some (s, m, 0, some err)
  | some (s, none, rx) =>
    match BigEndian.Uint16 rx with
    | none => none
    | some traw => some (s, m, decode traw.val, none)

/-- A simulated device for concrete runs: the bus state is the list of canned answers
still to give, each an error code or the bytes to store into the read buffer. -/
def scriptBus : i2c.Bus (List (Option Nat × List Byte)) Nat where
  Tx := fun st _ _ _ =>
    match st with
    | [] => ([], none, [])
    | (err, got) :: rest => (rest, err, got)

/-- Spec §4.3, in the spec's words, on the two reply bytes: `raw` is the big-endian value
masked with `0x1FFF`; if the sign bit (bit 12) is set the result is `-((raw & 0x0FFF) * 0.0625)`,
otherwise `raw * 0.0625`. -/
def specDecode (hi lo : Byte) : ℚ :=
  let raw := (hi.val * 256 + lo.val) &&& 0x1FFF
  if raw.testBit 12 then -(((raw &&& 0x0FFF : Nat) : ℚ) * 0.0625) else (raw : ℚ) * 0.0625

/-- The log entry of a register read of two bytes. -/
def readEvent {ε : Type} (a : Word) (register : Byte) (err : Option ε) : Event ε :=
  ⟨⟨a, [register], 2⟩, err⟩

/-- The log entry of a write-only transaction. -/
def writeEvent {ε : Type} (a : Word) (w : List Byte) (err : Option ε) : Event ε :=
  ⟨⟨a, w, 0⟩, err⟩

/-- The big-endian 16-bit value of a byte pair. -/
def word16 (hi lo : Byte) : Word := Fin.ofNat (hi.val * 256 + lo.val)

/-- The handle as `New` has assembled it when it calls `init` (lines 36-45): the zero
value with the default address, after the options, bound to the bus at its address. -/
def preInit {σ ε : Type} (b : i2c.Bus σ ε)
    (opts : List (MCP9808 σ ε → MCP9808 σ ε × Option (Error ε))) : MCP9808 σ ε :=
  let mcp := applyOpts opts { (MCP9808.zero : MCP9808 σ ε) with
    address := Fin.ofNat MCP9808_I2CADDR_DEFAULT.val }
  { mcp with d := some { Bus := b, Addr := mcp.address } }

/-- A handle bound to the simulated device at the default address, for concrete runs. -/
def simHandle : MCP9808 (List (Option Nat × List Byte)) Nat :=
  { address := 0x18, d := some { Bus := scriptBus, Addr := 0x18 }, mfgID := 0x0054,
    id := 0x0400, Temperature := 0 }

/-- Ordinary 13-bit two's-complement decoding, the reading the spec warns against: the
low 13 bits of the register, sign-extended from bit 12, times `0.0625`. -/
def twosComplementDecode (raw : Nat) : ℚ :=
  let field := raw &&& 0x1FFF
  if field.testBit 12 then (((field : ℤ) - 0x2000 : ℤ) : ℚ) * 0.0625 else (field : ℚ) * 0.0625

/-- The value of `decode` counted in sixteenths of a degree: the low 12 bits, negated
when bit 12 is set. -/
def sixteenths (x : Nat) : ℤ :=
  if x / 4096 % 2 = 1 then -((x % 4096 : Nat) : ℤ) else ((x % 4096 : Nat) : ℤ)

/-- An option a caller can write outside the package, on the exported field:
`func(m *MCP9808) error { m.Temperature = t; return nil }`. -/
def setTemperature {σ ε : Type} (t : ℚ) : MCP9808 σ ε → MCP9808 σ ε × Option (Error ε) :=
  fun m => ({ m with Temperature := t }, none)

/-- An option a caller can write that changes nothing and returns a non-nil error:
`func(m *MCP9808) error { return e }`. -/
def failingOption {σ ε : Type} (e : Error ε) : MCP9808 σ ε → MCP9808 σ ε × Option (Error ε) :=
  fun m => (m, some e)

/-- Everything a run of `New` yields except the `Temperature` field of the returned
handle: the final world, the handle's address, binding and identity fields, the error. -/
def sansTemperature {σ ε : Type}
    (out : Option (World σ ε × Option (MCP9808 σ ε) × Option (Error ε))) :
    Option (World σ ε × Option (Word × Option (i2c.Dev σ ε) × Word × Word) ×
      Option (Error ε)) :=
  out.map fun x => (x.1, x.2.1.map fun m => (m.address, m.d, m.mfgID, m.id), x.2.2)

/-! ## Bit-level facts -/

theorem land_1FFF (x : Nat) : x &&& 0x1FFF = x % 8192 :=
  Nat.and_pow_two_sub_one_eq_mod x 13

theorem land_0FFF (x : Nat) : x &&& 0x0FFF = x % 4096 :=
  Nat.and_pow_two_sub_one_eq_mod x 12

theorem land_1000 (x : Nat) : x &&& 0x1000 = if x / 4096 % 2 = 1 then 4096 else 0 := by
  apply Nat.eq_of_testBit_eq
  intro i
  rw [Nat.testBit_and, show (0x1000 : Nat) = 2 ^ 12 from rfl, Nat.testBit_two_pow]
  by_cases hi : 12 = i
  · subst hi
    simp only [decide_True, Bool.and_true]
    rw [Nat.testBit_to_div_mod]
    by_cases h : x / 2 ^ 12 % 2 = 1
    · have h2 : x / 4096 % 2 = 1 := h
      simp [h2]
      exact (Nat.testBit_two_pow_self (n := 12))
    · have h2 : ¬ x / 4096 % 2 = 1 := h
      simp [h2]
  · simp only [hi, decide_False, Bool.and_false]
    split
    · exact (Nat.testBit_two_pow_of_ne hi).symm
    · simp

/-- The sign test of `Temp` in arithmetic form. -/
theorem sign_test (x : Nat) : (x &&& 0x1000 = 0x1000) ↔ x / 4096 % 2 = 1 := by
  rw [land_1000]
  split <;> simp_all

/-- The decode in arithmetic form: the low 12 bits scaled by `1/16`, negated when bit 12
of the register value is set. -/
theorem decode_eq (x : Nat) :
    decode x = if x / 4096 % 2 = 1 then -((x % 4096 : Nat) : ℚ) / 16 else ((x % 4096 : Nat) : ℚ) / 16 := by
  have h1 : x % 8192 / 4096 % 2 = x / 4096 % 2 := by omega
  have h2 : x % 8192 % 4096 = x % 4096 := by omega
  simp only [decode, land_1FFF, land_0FFF, sign_test, h1, h2]
  split
  · norm_num
    ring
  · rename_i h
    have h3 : x % 8192 = x % 4096 := by omega
    rw [h3]
    norm_num
    ring

theorem uint16_eq (hi lo : Byte) :
    (lo.val ||| (hi.val <<< 8)) % 65536 = hi.val * 256 + lo.val := by
  have h1 : lo.val ||| (hi.val <<< 8) = 2 ^ 8 * hi.val + lo.val := by
    rw [Nat.or_comm, Nat.shiftLeft_eq, Nat.mul_comm]
    exact (Nat.mul_add_lt_is_or (i := 8) lo.isLt hi.val).symm
  rw [h1]
  have := hi.isLt
  have := lo.isLt
  omega

theorem Uint16_pair (hi lo : Byte) : BigEndian.Uint16 [hi, lo] = some (word16 hi lo) := by
  simp only [BigEndian.Uint16, uint16_eq, word16]

theorem word16_val (hi lo : Byte) : (word16 hi lo).val = hi.val * 256 + lo.val := by
  have := hi.isLt
  have := lo.isLt
  simp only [word16, Fin.ofNat, Fin.val_mk]
  omega

theorem word16_eq_iff (hi lo a b : Byte) : word16 hi lo = word16 a b ↔ hi = a ∧ lo = b := by
  constructor
  · intro h
    have hv := congrArg Fin.val h
    rw [word16_val, word16_val] at hv
    have := lo.isLt
    have := b.isLt
    constructor <;> apply Fin.ext <;> omega
  · rintro ⟨rfl, rfl⟩
    rfl

theorem copyBytes_length (dst src : List Byte) : (copyBytes dst src).length = dst.length := by
  simp only [copyBytes, List.length_take, List.length_append, List.length_drop]
  omega

/-! ## The register primitives -/

theorem readReg_eq {σ ε : Type} (m : MCP9808 σ ε) (d : i2c.Dev σ ε) (s : World σ ε)
    (register a b : Byte) (st : σ) (err : Option ε) (got : List Byte)
    (hd : m.d = some d) (htx : d.Bus.Tx s.bus d.Addr [register] [a, b] = (st, err, got)) :
    m.readReg register [a, b] s =
      some (⟨st, s.log ++ [readEvent d.Addr register err]⟩,
        err.map Error.transport, copyBytes [a, b] got) := by
  simp only [MCP9808.readReg, hd, i2c.Dev.Tx, htx, readEvent, List.length_cons, List.length_nil]

theorem writeReg_eq {σ ε : Type} (m : MCP9808 σ ε) (d : i2c.Dev σ ε) (s : World σ ε)
    (register : Byte) (w : List Byte) (st : σ) (err : Option ε) (got : List Byte)
    (hd : m.d = some d) (htx : d.Bus.Tx s.bus d.Addr (register :: w) [] = (st, err, got)) :
    m.writeReg register w s =
      some (⟨st, s.log ++ [writeEvent d.Addr (register :: w) err]⟩,
        err.map Error.transport) := by
  simp only [MCP9808.writeReg, hd, i2c.Dev.Tx, List.singleton_append, htx, List.length_nil,
    writeEvent]

/-- A two-byte buffer stays a two-byte buffer whatever the bus stores into it. -/
theorem copyBytes_pair (a b : Byte) (got : List Byte) :
    ∃ hi lo : Byte, copyBytes [a, b] got = [hi, lo] := by
  have h := copyBytes_length [a, b] got
  match hc : copyBytes [a, b] got, h with
  | [hi, lo], _ => exact ⟨hi, lo, rfl⟩

/-! ## The construction sequence, case by case -/

section initCases

variable {σ ε : Type} (m : MCP9808 σ ε) (d : i2c.Dev σ ε) (s : World σ ε)

theorem init_mfg_fail (st1 : σ) (e : ε) (g1 : List Byte) (hd : m.d = some d)
    (h1 : d.Bus.Tx s.bus d.Addr [0x06] [0, 0] = (st1, some e, g1)) :
    m.init s = some (⟨st1, s.log ++ [readEvent d.Addr 0x06 (some e)]⟩, m,
      some (Error.transport e)) := by
  have r1 := readReg_eq m d s 0x06 0 0 st1 (some e) g1 hd h1
  simp only [MCP9808.init, MCP9808_REG_MANUF_ID, List.replicate, r1, Option.map_some']

theorem init_mfg_mismatch (st1 : σ) (g1 : List Byte) (hi lo : Byte) (hd : m.d = some d)
    (h1 : d.Bus.Tx s.bus d.Addr [0x06] [0, 0] = (st1, none, g1))
    (hb1 : copyBytes [0, 0] g1 = [hi, lo]) (hne : word16 hi lo ≠ 0x0054) :
    m.init s = some (⟨st1, s.log ++ [readEvent d.Addr 0x06 none]⟩,
      { m with mfgID := word16 hi lo }, some Error.partDoesNotMatchDriver) := by
  have r1 := readReg_eq m d s 0x06 0 0 st1 none g1 hd h1
  simp only [MCP9808.init, MCP9808_REG_MANUF_ID, List.replicate, r1, hb1,
    Option.map_none', Uint16_pair, ne_eq, hne, not_false_eq_true, if_true]

theorem init_dev_fail (st1 st2 : σ) (g1 g2 : List Byte) (e : ε) (hd : m.d = some d)
    (h1 : d.Bus.Tx s.bus d.Addr [0x06] [0, 0] = (st1, none, g1))
    (hb1 : copyBytes [0, 0] g1 = [0x00, 0x54])
    (h2 : d.Bus.Tx st1 d.Addr [0x07] [0x00, 0x54] = (st2, some e, g2)) :
    m.init s = some (⟨st2, s.log ++ [readEvent d.Addr 0x06 none, readEvent d.Addr 0x07 (some e)]⟩,
      { m with mfgID := 0x0054 }, some (Error.transport e)) := by
  have r1 := readReg_eq m d s 0x06 0 0 st1 none g1 hd h1
  have r2 := readReg_eq { m with mfgID := 0x0054 } d
    ⟨st1, s.log ++ [readEvent d.Addr 0x06 none]⟩ 0x07 0x00 0x54 st2 (some e) g2 hd h2
  have hw : word16 0x00 0x54 = 0x0054 := rfl
  simp only [MCP9808.init, MCP9808_REG_MANUF_ID, MCP9808_REG_DEVICE_ID, List.replicate, r1,
    hb1, Option.map_none', Uint16_pair, hw, ne_eq, not_true_eq_false, if_false, r2]
  simp only [List.append_assoc, List.cons_append, List.nil_append, List.singleton_append,
    Option.map_some', Option.map_none']

theorem init_dev_mismatch (st1 st2 : σ) (g1 g2 : List Byte) (hi lo : Byte) (hd : m.d = some d)
    (h1 : d.Bus.Tx s.bus d.Addr [0x06] [0, 0] = (st1, none, g1))
    (hb1 : copyBytes [0, 0] g1 = [0x00, 0x54])
    (h2 : d.Bus.Tx st1 d.Addr [0x07] [0x00, 0x54] = (st2, none, g2))
    (hb2 : copyBytes [0x00, 0x54] g2 = [hi, lo]) (hne : word16 hi lo ≠ 0x0400) :
    m.init s = some (⟨st2, s.log ++ [readEvent d.Addr 0x06 none, readEvent d.Addr 0x07 none]⟩,
      { m with mfgID := 0x0054, id := word16 hi lo }, some Error.partDoesNotMatchDriver) := by
  have r1 := readReg_eq m d s 0x06 0 0 st1 none g1 hd h1
  have r2 := readReg_eq { m with mfgID := 0x0054 } d
    ⟨st1, s.log ++ [readEvent d.Addr 0x06 none]⟩ 0x07 0x00 0x54 st2 none g2 hd h2
  have hw : word16 0x00 0x54 = 0x0054 := rfl
  simp only [MCP9808.init, MCP9808_REG_MANUF_ID, MCP9808_REG_DEVICE_ID, List.replicate, r1,
    hb1, hb2, Option.map_none', Uint16_pair, hw, ne_eq, not_true_eq_false, if_false,
    r2, hne, not_false_eq_true, if_true, List.append_assoc]
  rfl

theorem init_cfg_fail (st1 st2 st3 : σ) (g1 g2 g3 : List Byte) (e : ε) (hd : m.d = some d)
    (h1 : d.Bus.Tx s.bus d.Addr [0x06] [0, 0] = (st1, none, g1))
    (hb1 : copyBytes [0, 0] g1 = [0x00, 0x54])
    (h2 : d.Bus.Tx st1 d.Addr [0x07] [0x00, 0x54] = (st2, none, g2))
    (hb2 : copyBytes [0x00, 0x54] g2 = [0x04, 0x00])
    (h3 : d.Bus.Tx st2 d.Addr [0x01, 0x00, 0x00] [] = (st3, some e, g3)) :
    m.init s = some (⟨st3, s.log ++ [readEvent d.Addr 0x06 none, readEvent d.Addr 0x07 none,
        writeEvent d.Addr [0x01, 0x00, 0x00] (some e)]⟩,
      { m with mfgID := 0x0054, id := 0x0400 }, some (Error.transport e)) := by
  have r1 := readReg_eq m d s 0x06 0 0 st1 none g1 hd h1
  have r2 := readReg_eq { m with mfgID := 0x0054 } d
    ⟨st1, s.log ++ [readEvent d.Addr 0x06 none]⟩ 0x07 0x00 0x54 st2 none g2 hd h2
  have r3 := writeReg_eq { m with mfgID := 0x0054, id := 0x0400 } d
    ⟨st2, s.log ++ [readEvent d.Addr 0x06 none] ++ [readEvent d.Addr 0x07 none]⟩
    0x01 [0x00, 0x00] st3 (some e) g3 hd h3
  have hw : word16 0x00 0x54 = 0x0054 := rfl
  have hw2 : word16 0x04 0x00 = 0x0400 := rfl
  simp only [MCP9808.init, MCP9808_REG_MANUF_ID, MCP9808_REG_DEVICE_ID, MCP9808_REG_CONFIG,
    List.replicate, r1, hb1, hb2, Option.map_none', Uint16_pair, hw, hw2,
    ne_eq, not_true_eq_false, if_false, r2, r3, List.length_cons, List.length_nil]
  simp only [List.append_assoc, List.cons_append, List.nil_append, List.singleton_append,
    Option.map_some', Option.map_none']

theorem init_res_fail (st1 st2 st3 st4 : σ) (g1 g2 g3 g4 : List Byte) (e : ε)
    (hd : m.d = some d)
    (h1 : d.Bus.Tx s.bus d.Addr [0x06] [0, 0] = (st1, none, g1))
    (hb1 : copyBytes [0, 0] g1 = [0x00, 0x54])
    (h2 : d.Bus.Tx st1 d.Addr [0x07] [0x00, 0x54] = (st2, none, g2))
    (hb2 : copyBytes [0x00, 0x54] g2 = [0x04, 0x00])
    (h3 : d.Bus.Tx st2 d.Addr [0x01, 0x00, 0x00] [] = (st3, none, g3))
    (h4 : d.Bus.Tx st3 d.Addr [0x08, 0x03] [] = (st4, some e, g4)) :
    m.init s = some (⟨st4, s.log ++ [readEvent d.Addr 0x06 none, readEvent d.Addr 0x07 none,
        writeEvent d.Addr [0x01, 0x00, 0x00] none, writeEvent d.Addr [0x08, 0x03] (some e)]⟩,
      { m with mfgID := 0x0054, id := 0x0400 }, some (Error.transport e)) := by
  have r1 := readReg_eq m d s 0x06 0 0 st1 none g1 hd h1
  have r2 := readReg_eq { m with mfgID := 0x0054 } d
    ⟨st1, s.log ++ [readEvent d.Addr 0x06 none]⟩ 0x07 0x00 0x54 st2 none g2 hd h2
  have r3 := writeReg_eq { m with mfgID := 0x0054, id := 0x0400 } d
    ⟨st2, s.log ++ [readEvent d.Addr 0x06 none] ++ [readEvent d.Addr 0x07 none]⟩
    0x01 [0x00, 0x00] st3 none g3 hd h3
  have r4 := writeReg_eq { m with mfgID := 0x0054, id := 0x0400 } d
    ⟨st3, s.log ++ [readEvent d.Addr 0x06 none] ++ [readEvent d.Addr 0x07 none] ++
      [writeEvent d.Addr [0x01, 0x00, 0x00] none]⟩
    0x08 [0x03] st4 (some e) g4 hd h4
  have hw : word16 0x00 0x54 = 0x0054 := rfl
  have hw2 : word16 0x04 0x00 = 0x0400 := rfl
  simp only [MCP9808.init, MCP9808_REG_MANUF_ID, MCP9808_REG_DEVICE_ID, MCP9808_REG_CONFIG,
    MCP9808_REG_RESOLUTION,
    List.replicate, r1, hb1, hb2, Option.map_none', Uint16_pair, hw, hw2,
    ne_eq, not_true_eq_false, if_false, r2, r3, r4, List.length_cons, List.length_nil]
  simp only [List.append_assoc, List.cons_append, List.nil_append, List.singleton_append,
    Option.map_some', Option.map_none']

theorem init_ok (st1 st2 st3 st4 : σ) (g1 g2 g3 g4 : List Byte) (hd : m.d = some d)
    (h1 : d.Bus.Tx s.bus d.Addr [0x06] [0, 0] = (st1, none, g1))
    (hb1 : copyBytes [0, 0] g1 = [0x00, 0x54])
    (h2 : d.Bus.Tx st1 d.Addr [0x07] [0x00, 0x54] = (st2, none, g2))
    (hb2 : copyBytes [0x00, 0x54] g2 = [0x04, 0x00])
    (h3 : d.Bus.Tx st2 d.Addr [0x01, 0x00, 0x00] [] = (st3, none, g3))
    (h4 : d.Bus.Tx st3 d.Addr [0x08, 0x03] [] = (st4, none, g4)) :
    m.init s = some (⟨st4, s.log ++ [readEvent d.Addr 0x06 none, readEvent d.Addr 0x07 none,
        writeEvent d.Addr [0x01, 0x00, 0x00] none, writeEvent d.Addr [0x08, 0x03] none]⟩,
      { m with mfgID := 0x0054, id := 0x0400 }, none) := by
  have r1 := readReg_eq m d s 0x06 0 0 st1 none g1 hd h1
  have r2 := readReg_eq { m with mfgID := 0x0054 } d
    ⟨st1, s.log ++ [readEvent d.Addr 0x06 none]⟩ 0x07 0x00 0x54 st2 none g2 hd h2
  have r3 := writeReg_eq { m with mfgID := 0x0054, id := 0x0400 } d
    ⟨st2, s.log ++ [readEvent d.Addr 0x06 none] ++ [readEvent d.Addr 0x07 none]⟩
    0x01 [0x00, 0x00] st3 none g3 hd h3
  have r4 := writeReg_eq { m with mfgID := 0x0054, id := 0x0400 } d
    ⟨st3, s.log ++ [readEvent d.Addr 0x06 none] ++ [readEvent d.Addr 0x07 none] ++
      [writeEvent d.Addr [0x01, 0x00, 0x00] none]⟩
    0x08 [0x03] st4 none g4 hd h4
  have hw : word16 0x00 0x54 = 0x0054 := rfl
  have hw2 : word16 0x04 0x00 = 0x0400 := rfl
  simp only [MCP9808.init, MCP9808_REG_MANUF_ID, MCP9808_REG_DEVICE_ID, MCP9808_REG_CONFIG,
    MCP9808_REG_RESOLUTION,
    List.replicate, r1, hb1, hb2, Option.map_none', Uint16_pair, hw, hw2,
    ne_eq, not_true_eq_false, if_false, r2, r3, r4, List.length_cons, List.length_nil]
  simp only [List.append_assoc, List.cons_append, List.nil_append, List.singleton_append,
    Option.map_some', Option.map_none']

end initCases

/-! ## `New` in terms of `init` -/

theorem New_eq {σ ε : Type} (b : i2c.Bus σ ε)
    (opts : List (MCP9808 σ ε → MCP9808 σ ε × Option (Error ε))) (s : World σ ε) :
    New b opts s =
      match (preInit b opts).init s with
      | none => none
      | some (s, _, some err) => some (s, none, some err)
      | some (s, mcp, none) => some (s, some mcp, none) := by
  rfl

theorem preInit_d {σ ε : Type} (b : i2c.Bus σ ε)
    (opts : List (MCP9808 σ ε → MCP9808 σ ε × Option (Error ε))) :
    (preInit b opts).d = some { Bus := b, Addr := (preInit b opts).address } := by
  rfl

theorem specDecode_eq (hi lo : Byte) : specDecode hi lo = decode (word16 hi lo).val := by
  rw [word16_val]
  simp only [specDecode, decode, Nat.testBit_to_div_mod, sign_test, decide_eq_true_eq,
    show (2 : Nat) ^ 12 = 4096 from rfl]
  split
  · ring
  · rfl

/-- Every run of `New`, classified: it returns, and either there is no handle and an
error, or there is no error and the handle is the assembled one with both identity fields
set, after the four construction transactions all succeeded. -/
theorem New_cases {σ ε : Type} (b : i2c.Bus σ ε)
    (opts : List (MCP9808 σ ε → MCP9808 σ ε × Option (Error ε))) (s : World σ ε) :
    ∃ s1 h r, New b opts s = some (s1, h, r) ∧
      ((h = none ∧ r ≠ none) ∨
       (r = none ∧ ∃ mcp, h = some mcp ∧
          mcp = { preInit b opts with mfgID := 0x0054, id := 0x0400 } ∧
          s1.log = s.log ++
            [readEvent (preInit b opts).address 0x06 none,
             readEvent (preInit b opts).address 0x07 none,
             writeEvent (preInit b opts).address [0x01, 0x00, 0x00] none,
             writeEvent (preInit b opts).address [0x08, 0x03] none])) := by
  have hd := preInit_d b opts
  rcases h1 : b.Tx s.bus (preInit b opts).address [0x06] [0, 0] with ⟨st1, e1, g1⟩
  cases e1 with
  | some e =>
    rw [New_eq, init_mfg_fail (preInit b opts) _ s st1 e g1 hd h1]
    exact ⟨_, none, some (Error.transport e), rfl, Or.inl ⟨rfl, by simp⟩⟩
  | none =>
    obtain ⟨hi1, lo1, hb1⟩ := copyBytes_pair 0 0 g1
    by_cases hm : word16 hi1 lo1 = 0x0054
    · obtain ⟨rfl, rfl⟩ := (word16_eq_iff hi1 lo1 0x00 0x54).mp hm
      rcases h2 : b.Tx st1 (preInit b opts).address [0x07] [0x00, 0x54] with ⟨st2, e2, g2⟩
      cases e2 with
      | some e =>
        rw [New_eq, init_dev_fail (preInit b opts) _ s st1 st2 g1 g2 e hd h1 hb1 h2]
        exact ⟨_, none, some (Error.transport e), rfl, Or.inl ⟨rfl, by simp⟩⟩
      | none =>
        obtain ⟨hi2, lo2, hb2⟩ := copyBytes_pair 0x00 0x54 g2
        by_cases hv : word16 hi2 lo2 = 0x0400
        · obtain ⟨rfl, rfl⟩ := (word16_eq_iff hi2 lo2 0x04 0x00).mp hv
          rcases h3 : b.Tx st2 (preInit b opts).address [0x01, 0x00, 0x00] [] with
            ⟨st3, e3, g3⟩
          cases e3 with
          | some e =>
            rw [New_eq, init_cfg_fail (preInit b opts) _ s st1 st2 st3 g1 g2 g3 e hd
              h1 hb1 h2 hb2 h3]
            exact ⟨_, none, some (Error.transport e), rfl, Or.inl ⟨rfl, by simp⟩⟩
          | none =>
            rcases h4 : b.Tx st3 (preInit b opts).address [0x08, 0x03] [] with ⟨st4, e4, g4⟩
            cases e4 with
            | some e =>
              rw [New_eq, init_res_fail (preInit b opts) _ s st1 st2 st3 st4 g1 g2 g3 g4 e hd
                h1 hb1 h2 hb2 h3 h4]
              exact ⟨_, none, some (Error.transport e), rfl, Or.inl ⟨rfl, by simp⟩⟩
            | none =>
              rw [New_eq, init_ok (preInit b opts) _ s st1 st2 st3 st4 g1 g2 g3 g4 hd
                h1 hb1 h2 hb2 h3 h4]
              exact ⟨_, _, none, rfl, Or.inr ⟨rfl, _, rfl, rfl, rfl⟩⟩
        · rw [New_eq, init_dev_mismatch (preInit b opts) _ s st1 st2 g1 g2 hi2 lo2 hd
            h1 hb1 h2 hb2 hv]
          exact ⟨_, none, some Error.partDoesNotMatchDriver, rfl, Or.inl ⟨rfl, by simp⟩⟩
    · rw [New_eq, init_mfg_mismatch (preInit b opts) _ s st1 g1 hi1 lo1 hd h1 hb1 hm]
      exact ⟨_, none, some Error.partDoesNotMatchDriver, rfl, Or.inl ⟨rfl, by simp⟩⟩

/-! ## `Temp`, case by case -/

theorem Temp_ok {σ ε : Type} (m : MCP9808 σ ε) (d : i2c.Dev σ ε) (s : World σ ε)
    (st : σ) (got : List Byte) (hi lo : Byte) (hd : m.d = some d)
    (htx : d.Bus.Tx s.bus d.Addr [0x05] [0, 0] = (st, none, got))
    (hrx : copyBytes [0, 0] got = [hi, lo]) :
    m.Temp s = some (⟨st, s.log ++ [readEvent d.Addr 0x05 none]⟩, m,
      decode (word16 hi lo).val, none) := by
  have r1 := readReg_eq m d s 0x05 0 0 st none got hd htx
  simp only [MCP9808.Temp, MCP9808_REG_AMBIENT_TEMP, List.replicate, r1, hrx,
    Option.map_none', Uint16_pair]

theorem Temp_fail {σ ε : Type} (m : MCP9808 σ ε) (d : i2c.Dev σ ε) (s : World σ ε)
    (st : σ) (got : List Byte) (e : ε) (hd : m.d = some d)
    (htx : d.Bus.Tx s.bus d.Addr [0x05] [0, 0] = (st, some e, got)) :
    m.Temp s = some (⟨st, s.log ++ [readEvent d.Addr 0x05 (some e)]⟩, m, 0,
      some (Error.transport e)) := by
  have r1 := readReg_eq m d s 0x05 0 0 st (some e) got hd htx
  simp only [MCP9808.Temp, MCP9808_REG_AMBIENT_TEMP, List.replicate, r1, Option.map_some']

/-! ## The claims -/

/-- C1: whenever the transport succeeds on the ambient-temperature read and leaves the two
bytes `hi`, `lo` in the read buffer, `Temp` returns without panic and without error, and
its value is the sign-and-magnitude decode of `(hi*256 + lo) & 0x1FFF` that the spec
describes (negated 12-bit magnitude times 0.0625 when bit 12 is set, the value times
0.0625 otherwise). -/
theorem Temp_sign_magnitude {σ ε : Type} (m : MCP9808 σ ε) (d : i2c.Dev σ ε) (s : World σ ε)
    (st : σ) (got : List Byte) (hi lo : Byte) (hd : m.d = some d)
    (htx : d.Bus.Tx s.bus d.Addr [0x05] [0, 0] = (st, none, got))
    (hrx : copyBytes [0, 0] got = [hi, lo]) :
    m.Temp s =
      some (⟨st, s.log ++ [readEvent d.Addr 0x05 none]⟩, m, specDecode hi lo, none) := by
  rw [Temp_ok m d s st got hi lo hd htx hrx, specDecode_eq]

/-- C1 at a concrete run: the simulated device answers `0x11 0x90`. -/
theorem Temp_sign_magnitude_witness :
    simHandle.d = some { Bus := scriptBus, Addr := 0x18 } ∧
    scriptBus.Tx [(none, [0x11, 0x90])] 0x18 [0x05] [0, 0] = ([], none, [0x11, 0x90]) ∧
    copyBytes [0, 0] [0x11, 0x90] = [0x11, 0x90] ∧
    simHandle.Temp ⟨[(none, [0x11, 0x90])], []⟩ =
      some (⟨[], [] ++ [readEvent 0x18 0x05 none]⟩, simHandle, specDecode 0x11 0x90, none) :=
  ⟨rfl, rfl, by decide,
    Temp_sign_magnitude simHandle { Bus := scriptBus, Addr := 0x18 }
      ⟨[(none, [0x11, 0x90])], []⟩ [] [0x11, 0x90] 0x11 0x90 rfl rfl (by decide)⟩

/-- C2: on a transport whose four construction transactions succeed, leaving `0x00 0x54`
in the buffer of the manufacturer-ID read and `0x04 0x00` in that of the device-ID read,
`New` returns a handle and no error, and the transactions it issues are exactly: read 2
bytes after `[0x06]`, read 2 bytes after `[0x07]`, write `[0x01, 0x00, 0x00]`, write
`[0x08, 0x03]`, in this order. -/
theorem New_issues_two_reads_two_writes {σ ε : Type} (b : i2c.Bus σ ε)
    (opts : List (MCP9808 σ ε → MCP9808 σ ε × Option (Error ε))) (s : World σ ε)
    (st1 st2 st3 st4 : σ) (g1 g2 g3 g4 : List Byte)
    (h1 : b.Tx s.bus (preInit b opts).address [0x06] [0, 0] = (st1, none, g1))
    (hb1 : copyBytes [0, 0] g1 = [0x00, 0x54])
    (h2 : b.Tx st1 (preInit b opts).address [0x07] [0x00, 0x54] = (st2, none, g2))
    (hb2 : copyBytes [0x00, 0x54] g2 = [0x04, 0x00])
    (h3 : b.Tx st2 (preInit b opts).address [0x01, 0x00, 0x00] [] = (st3, none, g3))
    (h4 : b.Tx st3 (preInit b opts).address [0x08, 0x03] [] = (st4, none, g4)) :
    ∃ mcp, New b opts s =
      some (⟨st4, s.log ++
        [readEvent (preInit b opts).address 0x06 none,
         readEvent (preInit b opts).address 0x07 none,
         writeEvent (preInit b opts).address [0x01, 0x00, 0x00] none,
         writeEvent (preInit b opts).address [0x08, 0x03] none]⟩, some mcp, none) := by
  refine ⟨{ preInit b opts with mfgID := 0x0054, id := 0x0400 }, ?_⟩
  rw [New_eq, init_ok (preInit b opts) _ s st1 st2 st3 st4 g1 g2 g3 g4 (preInit_d b opts)
    h1 hb1 h2 hb2 h3 h4]

/-- C2 at a concrete run: a simulated device with the right identity, no options. -/
theorem New_issues_two_reads_two_writes_witness :
    ∃ mcp, New scriptBus []
        ⟨[(none, [0x00, 0x54]), (none, [0x04, 0x00]), (none, []), (none, [])], []⟩ =
      some (⟨[], [] ++
        [readEvent 0x18 0x06 none, readEvent 0x18 0x07 none,
         writeEvent 0x18 [0x01, 0x00, 0x00] none, writeEvent 0x18 [0x08, 0x03] none]⟩,
        some mcp, none) :=
  New_issues_two_reads_two_writes scriptBus []
    ⟨[(none, [0x00, 0x54]), (none, [0x04, 0x00]), (none, []), (none, [])], []⟩
    [(none, [0x04, 0x00]), (none, []), (none, [])] [(none, []), (none, [])] [(none, [])] []
    [0x00, 0x54] [0x04, 0x00] [] [] rfl (by decide) rfl (by decide) rfl rfl

/-- C3: when the reads that are performed succeed but the manufacturer ID read back is not
`0x0054`, or it is and the device ID read back is not `0x0400`, `New` returns no handle and
the identity-mismatch error; the transactions it has issued are the manufacturer-ID read
alone, respectively the two identity reads, so none of them is a write. -/
theorem New_identity_mismatch_no_writes {σ ε : Type} (b : i2c.Bus σ ε)
    (opts : List (MCP9808 σ ε → MCP9808 σ ε × Option (Error ε))) (s : World σ ε)
    (st1 st2 : σ) (e2 : Option ε) (g1 g2 : List Byte) (hi1 lo1 hi2 lo2 : Byte)
    (h1 : b.Tx s.bus (preInit b opts).address [0x06] [0, 0] = (st1, none, g1))
    (hb1 : copyBytes [0, 0] g1 = [hi1, lo1])
    (h2 : b.Tx st1 (preInit b opts).address [0x07] [hi1, lo1] = (st2, e2, g2))
    (hb2 : copyBytes [hi1, lo1] g2 = [hi2, lo2])
    (hmis : word16 hi1 lo1 ≠ 0x0054 ∨ (e2 = none ∧ word16 hi2 lo2 ≠ 0x0400)) :
    ∃ s1 evs, New b opts s = some (s1, none, some Error.partDoesNotMatchDriver) ∧
      s1.log = s.log ++ evs ∧
      (evs = [readEvent (preInit b opts).address 0x06 none] ∨
       evs = [readEvent (preInit b opts).address 0x06 none,
              readEvent (preInit b opts).address 0x07 none]) ∧
      ∀ ev ∈ evs, ev.txn.rlen = 2 ∧ ev.txn.w.length = 1 := by
  by_cases hm : word16 hi1 lo1 = 0x0054
  · have hd2 : e2 = none ∧ word16 hi2 lo2 ≠ 0x0400 := by
      rcases hmis with h | h
      · exact absurd hm h
      · exact h
    obtain ⟨he2, hne2⟩ := hd2
    subst he2
    have hpair : hi1 = 0x00 ∧ lo1 = 0x54 := (word16_eq_iff hi1 lo1 0x00 0x54).mp hm
    obtain ⟨rfl, rfl⟩ := hpair
    refine ⟨⟨st2, s.log ++ [readEvent (preInit b opts).address 0x06 none,
      readEvent (preInit b opts).address 0x07 none]⟩, _, ?_, rfl, Or.inr rfl, ?_⟩
    · rw [New_eq, init_dev_mismatch (preInit b opts) _ s st1 st2 g1 g2 hi2 lo2
        (preInit_d b opts) h1 hb1 h2 hb2 hne2]
    · intro ev hev
      simp only [List.mem_cons, List.mem_singleton, List.not_mem_nil, or_false] at hev
      rcases hev with rfl | rfl <;> exact ⟨rfl, rfl⟩
  · refine ⟨⟨st1, s.log ++ [readEvent (preInit b opts).address 0x06 none]⟩, _, ?_, rfl,
      Or.inl rfl, ?_⟩
    · rw [New_eq, init_mfg_mismatch (preInit b opts) _ s st1 g1 hi1 lo1
        (preInit_d b opts) h1 hb1 hm]
    · intro ev hev
      simp only [List.mem_singleton] at hev
      subst hev
      exact ⟨rfl, rfl⟩

/-- C3 at a concrete run: the simulated device has the right manufacturer ID and the
device ID `0x0401`. -/
theorem New_identity_mismatch_no_writes_witness :
    ∃ s1 evs, New scriptBus [] ⟨[(none, [0x00, 0x54]), (none, [0x04, 0x01])], []⟩ =
        some (s1, none, some Error.partDoesNotMatchDriver) ∧
      s1.log = [] ++ evs ∧
      (evs = [readEvent 0x18 0x06 none] ∨
       evs = [readEvent 0x18 0x06 none, readEvent 0x18 0x07 none]) ∧
      ∀ ev ∈ evs, ev.txn.rlen = 2 ∧ ev.txn.w.length = 1 :=
  New_identity_mismatch_no_writes scriptBus []
    ⟨[(none, [0x00, 0x54]), (none, [0x04, 0x01])], []⟩ [(none, [0x04, 0x01])] [] none
    [0x00, 0x54] [0x04, 0x01] 0x00 0x54 0x04 0x01 rfl (by decide) rfl (by decide)
    (Or.inr ⟨rfl, by decide⟩)

/-- C4: if the transport fails with error `e` on the k-th construction step (k = 1 the
manufacturer-ID read, 2 the device-ID read, 3 the config write, 4 the resolution write)
after the earlier steps succeeded with matching IDs, `New` returns no handle and exactly
the error `e`, and the log has grown by exactly the first k transactions of the sequence. -/
theorem New_transport_failure_aborts {σ ε : Type} (b : i2c.Bus σ ε)
    (opts : List (MCP9808 σ ε → MCP9808 σ ε × Option (Error ε))) (s : World σ ε) (e : ε) :
    (∀ (st1 : σ) (g1 : List Byte),
      b.Tx s.bus (preInit b opts).address [0x06] [0, 0] = (st1, some e, g1) →
      New b opts s = some (⟨st1, s.log ++
        [readEvent (preInit b opts).address 0x06 (some e)]⟩,
        none, some (Error.transport e))) ∧
    (∀ (st1 st2 : σ) (g1 g2 : List Byte),
      b.Tx s.bus (preInit b opts).address [0x06] [0, 0] = (st1, none, g1) →
      copyBytes [0, 0] g1 = [0x00, 0x54] →
      b.Tx st1 (preInit b opts).address [0x07] [0x00, 0x54] = (st2, some e, g2) →
      New b opts s = some (⟨st2, s.log ++
        [readEvent (preInit b opts).address 0x06 none,
         readEvent (preInit b opts).address 0x07 (some e)]⟩,
        none, some (Error.transport e))) ∧
    (∀ (st1 st2 st3 : σ) (g1 g2 g3 : List Byte),
      b.Tx s.bus (preInit b opts).address [0x06] [0, 0] = (st1, none, g1) →
      copyBytes [0, 0] g1 = [0x00, 0x54] →
      b.Tx st1 (preInit b opts).address [0x07] [0x00, 0x54] = (st2, none, g2) →
      copyBytes [0x00, 0x54] g2 = [0x04, 0x00] →
      b.Tx st2 (preInit b opts).address [0x01, 0x00, 0x00] [] = (st3, some e, g3) →
      New b opts s = some (⟨st3, s.log ++
        [readEvent (preInit b opts).address 0x06 none,
         readEvent (preInit b opts).address 0x07 none,
         writeEvent (preInit b opts).address [0x01, 0x00, 0x00] (some e)]⟩,
        none, some (Error.transport e))) ∧
    (∀ (st1 st2 st3 st4 : σ) (g1 g2 g3 g4 : List Byte),
      b.Tx s.bus (preInit b opts).address [0x06] [0, 0] = (st1, none, g1) →
      copyBytes [0, 0] g1 = [0x00, 0x54] →
      b.Tx st1 (preInit b opts).address [0x07] [0x00, 0x54] = (st2, none, g2) →
      copyBytes [0x00, 0x54] g2 = [0x04, 0x00] →
      b.Tx st2 (preInit b opts).address [0x01, 0x00, 0x00] [] = (st3, none, g3) →
      b.Tx st3 (preInit b opts).address [0x08, 0x03] [] = (st4, some e, g4) →
      New b opts s = some (⟨st4, s.log ++
        [readEvent (preInit b opts).address 0x06 none,
         readEvent (preInit b opts).address 0x07 none,
         writeEvent (preInit b opts).address [0x01, 0x00, 0x00] none,
         writeEvent (preInit b opts).address [0x08, 0x03] (some e)]⟩,
        none, some (Error.transport e))) := by
  refine ⟨?_, ?_, ?_, ?_⟩
  · intro st1 g1 h1
    rw [New_eq, init_mfg_fail (preInit b opts) _ s st1 e g1 (preInit_d b opts) h1]
  · intro st1 st2 g1 g2 h1 hb1 h2
    rw [New_eq, init_dev_fail (preInit b opts) _ s st1 st2 g1 g2 e (preInit_d b opts)
      h1 hb1 h2]
  · intro st1 st2 st3 g1 g2 g3 h1 hb1 h2 hb2 h3
    rw [New_eq, init_cfg_fail (preInit b opts) _ s st1 st2 st3 g1 g2 g3 e (preInit_d b opts)
      h1 hb1 h2 hb2 h3]
  · intro st1 st2 st3 st4 g1 g2 g3 g4 h1 hb1 h2 hb2 h3 h4
    rw [New_eq, init_res_fail (preInit b opts) _ s st1 st2 st3 st4 g1 g2 g3 g4 e
      (preInit_d b opts) h1 hb1 h2 hb2 h3 h4]

/-- C4 at concrete runs: the simulated device fails with error code 7 at step 1, 2, 3
and 4 in turn, and `New` stops after 1, 2, 3 and 4 transactions. -/
theorem New_transport_failure_aborts_witness :
    New scriptBus [] ⟨[(some 7, [])], []⟩ =
      some (⟨[], [] ++ [readEvent 0x18 0x06 (some 7)]⟩, none, some (Error.transport 7)) ∧
    New scriptBus [] ⟨[(none, [0x00, 0x54]), (some 7, [])], []⟩ =
      some (⟨[], [] ++ [readEvent 0x18 0x06 none, readEvent 0x18 0x07 (some 7)]⟩,
        none, some (Error.transport 7)) ∧
    New scriptBus [] ⟨[(none, [0x00, 0x54]), (none, [0x04, 0x00]), (some 7, [])], []⟩ =
      some (⟨[], [] ++ [readEvent 0x18 0x06 none, readEvent 0x18 0x07 none,
        writeEvent 0x18 [0x01, 0x00, 0x00] (some 7)]⟩, none, some (Error.transport 7)) ∧
    New scriptBus []
        ⟨[(none, [0x00, 0x54]), (none, [0x04, 0x00]), (none, []), (some 7, [])], []⟩ =
      some (⟨[], [] ++ [readEvent 0x18 0x06 none, readEvent 0x18 0x07 none,
        writeEvent 0x18 [0x01, 0x00, 0x00] none, writeEvent 0x18 [0x08, 0x03] (some 7)]⟩,
        none, some (Error.transport 7)) :=
  ⟨(New_transport_failure_aborts scriptBus [] ⟨[(some 7, [])], []⟩ 7).1 [] [] rfl,
   (New_transport_failure_aborts scriptBus []
      ⟨[(none, [0x00, 0x54]), (some 7, [])], []⟩ 7).2.1
      [(some 7, [])] [] [0x00, 0x54] [] rfl (by decide) rfl,
   (New_transport_failure_aborts scriptBus []
      ⟨[(none, [0x00, 0x54]), (none, [0x04, 0x00]), (some 7, [])], []⟩ 7).2.2.1
      [(none, [0x04, 0x00]), (some 7, [])] [(some 7, [])] [] [0x00, 0x54] [0x04, 0x00] []
      rfl (by decide) rfl (by decide) rfl,
   (New_transport_failure_aborts scriptBus []
      ⟨[(none, [0x00, 0x54]), (none, [0x04, 0x00]), (none, []), (some 7, [])], []⟩ 7).2.2.2
      [(none, [0x04, 0x00]), (none, []), (some 7, [])] [(none, []), (some 7, [])]
      [(some 7, [])] [] [0x00, 0x54] [0x04, 0x00] [] []
      rfl (by decide) rfl (by decide) rfl rfl⟩

/-- C5: every call of `Temp` on a bound handle, whatever the transport answers, returns
and extends the log by exactly one transaction: the write of the single byte `[0x05]`
followed by a read of 2 bytes, carrying the transport's outcome.  No write-only
transaction and no identity read is issued. -/
theorem Temp_issues_one_read {σ ε : Type} (m : MCP9808 σ ε) (d : i2c.Dev σ ε)
    (s : World σ ε) (hd : m.d = some d) :
    ∃ st m1 v r, m.Temp s =
      some (⟨st, s.log ++
        [⟨⟨d.Addr, [0x05], 2⟩, (d.Bus.Tx s.bus d.Addr [0x05] [0, 0]).2.1⟩]⟩, m1, v, r) := by
  rcases htx : d.Bus.Tx s.bus d.Addr [0x05] [0, 0] with ⟨st, err, got⟩
  cases err with
  | some e => exact ⟨st, m, 0, _, Temp_fail m d s st got e hd htx⟩
  | none =>
    obtain ⟨hi, lo, hrx⟩ := copyBytes_pair 0 0 got
    exact ⟨st, m, _, _, Temp_ok m d s st got hi lo hd htx hrx⟩

/-- C5 at a concrete run: one successful read on the simulated device. -/
theorem Temp_issues_one_read_witness :
    ∃ st m1 v r, simHandle.Temp ⟨[(none, [0x01, 0x90])], []⟩ =
      some (⟨st, [] ++
        [⟨⟨0x18, [0x05], 2⟩, (scriptBus.Tx [(none, [0x01, 0x90])] 0x18 [0x05] [0, 0]).2.1⟩]⟩,
        m1, v, r) :=
  Temp_issues_one_read simHandle { Bus := scriptBus, Addr := 0x18 }
    ⟨[(none, [0x01, 0x90])], []⟩ rfl

/-- C6: for every register value `r` (in particular every 16-bit one),
`decode r = decode (r & 0x1FFF)`, and two values with the same low 13 bits decode alike:
the upper three flag bits never influence the value `Temp` returns. -/
theorem decode_ignores_flag_bits (r : Nat) :
    decode r = decode (r &&& 0x1FFF) ∧
    ∀ r2 : Nat, r2 % 8192 = r % 8192 → decode r2 = decode r := by
  constructor
  · simp only [decode, land_1FFF, Nat.mod_mod]
  · intro r2 h
    simp only [decode, land_1FFF, h]

/-- C7: the test vectors of the spec: `decode 0x0190 = 25.0`, `decode 0x1190 = -25.0`,
`decode 0x1FFF = -255.9375`. -/
theorem decode_test_vectors :
    decode 0x0190 = 25.0 ∧ decode 0x1190 = -25.0 ∧ decode 0x1FFF = -255.9375 := by
  refine ⟨?_, ?_, ?_⟩ <;> rw [decode_eq] <;> norm_num

/-- C8: `New` always returns, and its result is either no handle with an error, or a
handle with no error, never both and never neither.  Every handle it returns has
`mfgID = 0x0054` and `id = 0x0400`, and the run that produced it issued the two identity
reads and then the config and the resolution write, all four without transport error. -/
theorem New_all_or_nothing {σ ε : Type} (b : i2c.Bus σ ε)
    (opts : List (MCP9808 σ ε → MCP9808 σ ε × Option (Error ε))) (s : World σ ε) :
    ∃ s1 h r, New b opts s = some (s1, h, r) ∧
      ((h = none ∧ r ≠ none) ∨
       (r = none ∧ ∃ mcp, h = some mcp ∧ mcp.mfgID = 0x0054 ∧ mcp.id = 0x0400 ∧
          s1.log = s.log ++
            [readEvent (preInit b opts).address 0x06 none,
             readEvent (preInit b opts).address 0x07 none,
             writeEvent (preInit b opts).address [0x01, 0x00, 0x00] none,
             writeEvent (preInit b opts).address [0x08, 0x03] none])) := by
  obtain ⟨s1, h, r, hnew, hcase⟩ := New_cases b opts s
  refine ⟨s1, h, r, hnew, ?_⟩
  rcases hcase with hfail | ⟨hr, mcp, hh, hm, hlog⟩
  · exact Or.inl hfail
  · subst hm
    exact Or.inr ⟨hr, _, hh, rfl, rfl, hlog⟩

/-- C9: on a bound handle `Temp` returns, and the error it returns is the transport's
outcome for its one transaction: an error exactly when the transport failed, and then
exactly the transport's error.  The handle after the call is the handle before it, so
`Temperature` and every other field keep their previous values. -/
theorem Temp_error_iff_transport_error {σ ε : Type} (m : MCP9808 σ ε) (d : i2c.Dev σ ε)
    (s : World σ ε) (st : σ) (err : Option ε) (got : List Byte) (hd : m.d = some d)
    (htx : d.Bus.Tx s.bus d.Addr [0x05] [0, 0] = (st, err, got)) :
    ∃ s1 v r, m.Temp s = some (s1, m, v, r) ∧
      (r ≠ none ↔ err ≠ none) ∧
      (∀ e, err = some e → r = some (Error.transport e)) ∧
      (∀ e1, r = some e1 → ∃ e, err = some e ∧ e1 = Error.transport e) := by
  cases err with
  | some e =>
    refine ⟨_, 0, some (Error.transport e), Temp_fail m d s st got e hd htx, by simp, ?_, ?_⟩
    · intro e0 h0
      cases h0
      rfl
    · intro e1 h1
      cases h1
      exact ⟨e, rfl, rfl⟩
  | none =>
    obtain ⟨hi, lo, hrx⟩ := copyBytes_pair 0 0 got
    refine ⟨_, _, none, Temp_ok m d s st got hi lo hd htx hrx, by simp, ?_, ?_⟩
    · intro e0 h0
      cases h0
    · intro e1 h1
      cases h1

/-- C9 at a concrete run: the simulated device fails the read with error code 7. -/
theorem Temp_error_iff_transport_error_witness :
    ∃ s1 v r, simHandle.Temp ⟨[(some 7, [])], []⟩ = some (s1, simHandle, v, r) ∧
      (r ≠ none ↔ (some 7 : Option Nat) ≠ none) ∧
      (∀ e, (some 7 : Option Nat) = some e → r = some (Error.transport e)) ∧
      (∀ e1, r = some e1 → ∃ e, (some 7 : Option Nat) = some e ∧ e1 = Error.transport e) :=
  Temp_error_iff_transport_error simHandle { Bus := scriptBus, Addr := 0x18 }
    ⟨[(some 7, [])], []⟩ [] (some 7) [] rfl rfl

/-- C10 fails as stated: on the simulated device answering `0x01 0x90`, `Temp` succeeds
and returns 25, while the handle's `Temperature` after the call is still 0. -/
theorem Temp_returns_25_Temperature_stays_0 :
    ∃ s1 m1 v, simHandle.Temp ⟨[(none, [0x01, 0x90])], []⟩ = some (s1, m1, v, none) ∧
      v = 25 ∧ m1.Temperature = 0 ∧ m1.Temperature ≠ v := by
  have hw : (word16 0x01 0x90).val = 400 := by decide
  have hv : decode (word16 0x01 0x90).val = 25 := by
    rw [hw, decode_eq]
    norm_num
  have ht := Temp_ok simHandle { Bus := scriptBus, Addr := 0x18 }
    ⟨[(none, [0x01, 0x90])], []⟩ [] [0x01, 0x90] 0x01 0x90 rfl rfl (by decide)
  rw [hv] at ht
  refine ⟨_, simHandle, 25, ht, rfl, rfl, ?_⟩
  show (0 : ℚ) ≠ 25
  norm_num

/-- C10 as amended: `Temp` never assigns the `Temperature` field.  After every call on a
bound handle, successful or not, `Temperature` has the value it had before the call. -/
theorem Temp_keeps_Temperature {σ ε : Type} (m : MCP9808 σ ε) (d : i2c.Dev σ ε)
    (s : World σ ε) (hd : m.d = some d) :
    ∃ s1 m1 v r, m.Temp s = some (s1, m1, v, r) ∧ m1.Temperature = m.Temperature := by
  rcases htx : d.Bus.Tx s.bus d.Addr [0x05] [0, 0] with ⟨st, err, got⟩
  cases err with
  | some e => exact ⟨_, m, 0, _, Temp_fail m d s st got e hd htx, rfl⟩
  | none =>
    obtain ⟨hi, lo, hrx⟩ := copyBytes_pair 0 0 got
    exact ⟨_, m, _, _, Temp_ok m d s st got hi lo hd htx hrx, rfl⟩

/-- C10 as amended, at a concrete run: a successful read leaves `Temperature` alone. -/
theorem Temp_keeps_Temperature_witness :
    ∃ s1 m1 v r, simHandle.Temp ⟨[(none, [0x01, 0x90])], []⟩ = some (s1, m1, v, r) ∧
      m1.Temperature = simHandle.Temperature :=
  Temp_keeps_Temperature simHandle { Bus := scriptBus, Addr := 0x18 }
    ⟨[(none, [0x01, 0x90])], []⟩ rfl

/-! ## The decode in sixteenths -/

theorem decode_sixteenths (x : Nat) : decode x = (sixteenths x : ℚ) / 16 := by
  rw [decode_eq, sixteenths]
  split <;> push_cast <;> rfl

theorem sixteenths_bounds (x : Nat) : -4095 ≤ sixteenths x ∧ sixteenths x ≤ 4095 := by
  unfold sixteenths
  split <;> omega

theorem decode_eq_iff (a b : Nat) : decode a = decode b ↔ sixteenths a = sixteenths b := by
  rw [decode_sixteenths, decode_sixteenths]
  constructor
  · intro h
    have h16 : (sixteenths a : ℚ) = (sixteenths b : ℚ) := by
      have := congrArg (fun q : ℚ => q * 16) h
      simpa using this
    exact_mod_cast h16
  · intro h
    rw [h]

theorem decode_bounds (x : Nat) : -255.9375 ≤ decode x ∧ decode x ≤ 255.9375 := by
  obtain ⟨hlo, hhi⟩ := sixteenths_bounds x
  have hlo2 : (-4095 : ℚ) ≤ (sixteenths x : ℚ) := by exact_mod_cast hlo
  have hhi2 : (sixteenths x : ℚ) ≤ 4095 := by exact_mod_cast hhi
  rw [decode_sixteenths]
  constructor
  · norm_num
    linarith
  · norm_num
    linarith

theorem twosComplementDecode_eq (x : Nat) (hs : x / 4096 % 2 = 1) :
    twosComplementDecode x = (((x % 8192 : Nat) : ℤ) - 8192 : ℤ) / 16 := by
  have h1 : x % 8192 / 4096 % 2 = 1 := by omega
  simp only [twosComplementDecode, land_1FFF, Nat.testBit_to_div_mod,
    show (2 : Nat) ^ 12 = 4096 from rfl, h1, decide_True, if_true]
  norm_num
  ring

/-! ## The claims on ranges, register writes and the encoding -/

/-- C11 fails as stated: on the simulated device answering `0x0F 0xFF`, `Temp` succeeds
and returns 255.9375, above the claimed upper end 127.9375. -/
theorem Temp_returns_above_128 :
    ∃ s1 m1 v, simHandle.Temp ⟨[(none, [0x0F, 0xFF])], []⟩ = some (s1, m1, v, none) ∧
      v = 255.9375 ∧ ¬ (-128 ≤ v ∧ v ≤ 127.9375) := by
  have hw : (word16 0x0F 0xFF).val = 4095 := by decide
  have hv : decode (word16 0x0F 0xFF).val = 255.9375 := by
    rw [hw, decode_eq]
    norm_num
  have ht := Temp_ok simHandle { Bus := scriptBus, Addr := 0x18 }
    ⟨[(none, [0x0F, 0xFF])], []⟩ [] [0x0F, 0xFF] 0x0F 0xFF rfl rfl (by decide)
  rw [hv] at ht
  refine ⟨_, simHandle, 255.9375, ht, rfl, ?_⟩
  norm_num

/-- C11 as amended: for every 2-byte register reply, the value returned by a successful
`Temp` lies in the range -255.9375 to +255.9375 inclusive. -/
theorem Temp_range {σ ε : Type} (m : MCP9808 σ ε) (d : i2c.Dev σ ε) (s : World σ ε)
    (st : σ) (got : List Byte) (hi lo : Byte) (hd : m.d = some d)
    (htx : d.Bus.Tx s.bus d.Addr [0x05] [0, 0] = (st, none, got))
    (hrx : copyBytes [0, 0] got = [hi, lo]) :
    ∃ s1 m1 v, m.Temp s = some (s1, m1, v, none) ∧ -255.9375 ≤ v ∧ v ≤ 255.9375 :=
  ⟨_, _, _, Temp_ok m d s st got hi lo hd htx hrx, decode_bounds _⟩

/-- C11 as amended, at a concrete run: the simulated device answers `0x1F 0xFF`. -/
theorem Temp_range_witness :
    ∃ s1 m1 v, simHandle.Temp ⟨[(none, [0x1F, 0xFF])], []⟩ = some (s1, m1, v, none) ∧
      -255.9375 ≤ v ∧ v ≤ 255.9375 :=
  Temp_range simHandle { Bus := scriptBus, Addr := 0x18 } ⟨[(none, [0x1F, 0xFF])], []⟩
    [] [0x1F, 0xFF] 0x1F 0xFF rfl rfl (by decide)

/-- C13: for every register index and every payload, the empty one included, `writeReg`
on a bound handle issues exactly one transaction, whose outbound bytes are
`[register] ++ w` (length `len(w) + 1`, first byte `register`, then the payload in order)
and whose read buffer is empty, and it returns exactly the transport's result. -/
theorem writeReg_one_write {σ ε : Type} (m : MCP9808 σ ε) (d : i2c.Dev σ ε) (s : World σ ε)
    (register : Byte) (w : List Byte) (st : σ) (err : Option ε) (got : List Byte)
    (hd : m.d = some d)
    (htx : d.Bus.Tx s.bus d.Addr ([register] ++ w) [] = (st, err, got)) :
    m.writeReg register w s =
        some (⟨st, s.log ++ [⟨⟨d.Addr, [register] ++ w, 0⟩, err⟩]⟩,
          err.map Error.transport) ∧
      ([register] ++ w).length = w.length + 1 ∧
      ([register] ++ w).head? = some register ∧
      ([register] ++ w).tail = w :=
  ⟨writeReg_eq m d s register w st err got hd htx, by simp, rfl, rfl⟩

/-- C13 at a concrete run: the empty payload written to register 8 of the simulated
device, which fails with error code 7. -/
theorem writeReg_one_write_witness :
    simHandle.writeReg 0x08 [] ⟨[(some 7, [])], []⟩ =
        some (⟨[], [] ++ [⟨⟨0x18, [0x08] ++ [], 0⟩, some 7⟩]⟩,
          (some 7).map Error.transport) ∧
      ([(0x08 : Byte)] ++ []).length = ([] : List Byte).length + 1 ∧
      ([(0x08 : Byte)] ++ []).head? = some 0x08 ∧
      ([(0x08 : Byte)] ++ []).tail = [] :=
  writeReg_one_write simHandle { Bus := scriptBus, Addr := 0x18 } ⟨[(some 7, [])], []⟩
    0x08 [] [] (some 7) [] rfl rfl

/-- C14 fails as stated: the field value `0x1800` has the sign bit set, and 13-bit
two's-complement decoding gives the same result as the decode of `Temp`, namely -128. -/
theorem twosComplement_agrees_at_0x1800 :
    0x1800 < 0x2000 ∧ 0x1800 &&& 0x1000 = 0x1000 ∧
      twosComplementDecode 0x1800 = -128 ∧ decode 0x1800 = -128 := by
  refine ⟨by decide, by decide, ?_, ?_⟩
  · rw [twosComplementDecode_eq 0x1800 (by decide)]
    norm_num
  · rw [decode_eq]
    norm_num

/-- C14 as amended: for every 13-bit field value with the sign bit set, two's-complement
decoding agrees with the decode of `Temp` exactly at `0x1800` (where both give -128); at
every other negative reading the two results differ. -/
theorem twosComplement_differs_except_0x1800 (x : Nat) (hx : x < 0x2000)
    (hs : x &&& 0x1000 = 0x1000) :
    twosComplementDecode x = decode x ↔ x = 0x1800 := by
  have hs2 : x / 4096 % 2 = 1 := (sign_test x).mp hs
  rw [twosComplementDecode_eq x hs2, decode_sixteenths]
  have hsix : sixteenths x = -((x % 4096 : Nat) : ℤ) := by
    simp only [sixteenths, hs2, if_true]
  rw [hsix]
  constructor
  · intro h
    have h16 : ((((x % 8192 : Nat) : ℤ) - 8192 : ℤ) : ℚ) = ((-((x % 4096 : Nat) : ℤ) : ℤ) : ℚ) := by
      have := congrArg (fun q : ℚ => q * 16) h
      simpa using this
    have hz : ((x % 8192 : Nat) : ℤ) - 8192 = -((x % 4096 : Nat) : ℤ) := by exact_mod_cast h16
    omega
  · intro h
    subst h
    norm_num

/-- C14 as amended, at a concrete input: the field value `0x1FFF` (two's complement
-0.0625, sign-and-magnitude -255.9375). -/
theorem twosComplement_differs_except_0x1800_witness :
    twosComplementDecode 0x1FFF = decode 0x1FFF ↔ 0x1FFF = 0x1800 :=
  twosComplement_differs_except_0x1800 0x1FFF (by decide) (by decide)

/-- C17: on the 13-bit field the decode of `Temp` is injective except for the two zeros:
for 13-bit values `a ≠ b`, `decode a = decode b` holds exactly when one of them is
`0x0000` and the other `0x1000`. -/
theorem decode_injective_except_zero (a b : Nat) (ha : a < 0x2000) (hb : b < 0x2000)
    (hab : a ≠ b) :
    decode a = decode b ↔ (a = 0x0000 ∧ b = 0x1000) ∨ (a = 0x1000 ∧ b = 0x0000) := by
  rw [decode_eq_iff]
  unfold sixteenths
  constructor
  · intro h
    split at h <;> split at h <;> omega
  · intro h
    rcases h with ⟨rfl, rfl⟩ | ⟨rfl, rfl⟩ <;> decide

/-- C17 at a concrete input: positive and negative zero. -/
theorem decode_injective_except_zero_witness :
    decode 0x0000 = decode 0x1000 ↔
      ((0x0000 : Nat) = 0x0000 ∧ (0x1000 : Nat) = 0x1000) ∨
      ((0x0000 : Nat) = 0x1000 ∧ (0x1000 : Nat) = 0x0000) :=
  decode_injective_except_zero 0x0000 0x1000 (by decide) (by decide) (by decide)

/-- C18: for every raw value (in particular every 16-bit one) `16 * decode raw` is an
integer `k` with `-4095 ≤ k ≤ 4095`, so the result is a multiple of 0.0625 of absolute
value at most 255.9375; the bounds are attained at `0x0FFF` and `0x1FFF`. -/
theorem decode_multiple_of_sixteenth (raw : Nat) :
    (∃ k : ℤ, 16 * decode raw = k ∧ decode raw = k * 0.0625 ∧ -4095 ≤ k ∧ k ≤ 4095) ∧
      |decode raw| ≤ 255.9375 ∧
      16 * decode 0x0FFF = 4095 ∧ 16 * decode 0x1FFF = -4095 := by
  refine ⟨⟨sixteenths raw, ?_, ?_, (sixteenths_bounds raw).1, (sixteenths_bounds raw).2⟩,
    ?_, ?_, ?_⟩
  · rw [decode_sixteenths]
    ring
  · rw [decode_sixteenths]
    norm_num
    ring
  · rw [abs_le]
    exact decode_bounds raw
  · rw [decode_eq]
    norm_num
  · rw [decode_eq]
    norm_num

/-! ## What a run of `init` and of `Temp` leaves in the handle -/

theorem init_unbound {σ ε : Type} (m : MCP9808 σ ε) (s : World σ ε) (hd : m.d = none) :
    m.init s = none := by
  simp only [MCP9808.init, MCP9808.readReg, hd]

theorem Temp_unbound {σ ε : Type} (m : MCP9808 σ ε) (s : World σ ε) (hd : m.d = none) :
    m.Temp s = none := by
  simp only [MCP9808.Temp, MCP9808.readReg, hd]

/-- Two handles bound to the same connection run `init` alike: same final world, same
error, same transactions, all to the connection's address; each keeps its own address,
binding and `Temperature`, and on success has both identity fields set. -/
theorem init_pair {σ ε : Type} (m1 m2 : MCP9808 σ ε) (d : i2c.Dev σ ε) (s : World σ ε)
    (hd1 : m1.d = some d) (hd2 : m2.d = some d) :
    ∃ s1 k1 k2 r evs, m1.init s = some (s1, k1, r) ∧ m2.init s = some (s1, k2, r) ∧
      s1.log = s.log ++ evs ∧ (∀ ev ∈ evs, ev.txn.addr = d.Addr) ∧
      (k1.address = m1.address ∧ k1.d = m1.d ∧ k1.Temperature = m1.Temperature) ∧
      (r = none → k1 = { m1 with mfgID := 0x0054, id := 0x0400 } ∧
        k2 = { m2 with mfgID := 0x0054, id := 0x0400 }) := by
  rcases h1 : d.Bus.Tx s.bus d.Addr [0x06] [0, 0] with ⟨st1, e1, g1⟩
  cases e1 with
  | some e =>
    exact ⟨_, _, _, _, _, init_mfg_fail m1 d s st1 e g1 hd1 h1,
      init_mfg_fail m2 d s st1 e g1 hd2 h1, rfl, by simp [readEvent], ⟨rfl, rfl, rfl⟩,
      by simp⟩
  | none =>
    obtain ⟨hi1, lo1, hb1⟩ := copyBytes_pair 0 0 g1
    by_cases hm : word16 hi1 lo1 = 0x0054
    · obtain ⟨rfl, rfl⟩ := (word16_eq_iff hi1 lo1 0x00 0x54).mp hm
      rcases h2 : d.Bus.Tx st1 d.Addr [0x07] [0x00, 0x54] with ⟨st2, e2, g2⟩
      cases e2 with
      | some e =>
        exact ⟨_, _, _, _, _, init_dev_fail m1 d s st1 st2 g1 g2 e hd1 h1 hb1 h2,
          init_dev_fail m2 d s st1 st2 g1 g2 e hd2 h1 hb1 h2, rfl, by simp [readEvent],
          ⟨rfl, rfl, rfl⟩, by simp⟩
      | none =>
        obtain ⟨hi2, lo2, hb2⟩ := copyBytes_pair 0x00 0x54 g2
        by_cases hv : word16 hi2 lo2 = 0x0400
        · obtain ⟨rfl, rfl⟩ := (word16_eq_iff hi2 lo2 0x04 0x00).mp hv
          rcases h3 : d.Bus.Tx st2 d.Addr [0x01, 0x00, 0x00] [] with ⟨st3, e3, g3⟩
          cases e3 with
          | some e =>
            exact ⟨_, _, _, _, _,
              init_cfg_fail m1 d s st1 st2 st3 g1 g2 g3 e hd1 h1 hb1 h2 hb2 h3,
              init_cfg_fail m2 d s st1 st2 st3 g1 g2 g3 e hd2 h1 hb1 h2 hb2 h3, rfl,
              by simp [readEvent, writeEvent], ⟨rfl, rfl, rfl⟩, by simp⟩
          | none =>
            rcases h4 : d.Bus.Tx st3 d.Addr [0x08, 0x03] [] with ⟨st4, e4, g4⟩
            cases e4 with
            | some e =>
              exact ⟨_, _, _, _, _,
                init_res_fail m1 d s st1 st2 st3 st4 g1 g2 g3 g4 e hd1 h1 hb1 h2 hb2 h3 h4,
                init_res_fail m2 d s st1 st2 st3 st4 g1 g2 g3 g4 e hd2 h1 hb1 h2 hb2 h3 h4,
                rfl, by simp [readEvent, writeEvent], ⟨rfl, rfl, rfl⟩, by simp⟩
            | none =>
              exact ⟨_, _, _, _, _,
                init_ok m1 d s st1 st2 st3 st4 g1 g2 g3 g4 hd1 h1 hb1 h2 hb2 h3 h4,
                init_ok m2 d s st1 st2 st3 st4 g1 g2 g3 g4 hd2 h1 hb1 h2 hb2 h3 h4,
                rfl, by simp [readEvent, writeEvent], ⟨rfl, rfl, rfl⟩, fun _ => ⟨rfl, rfl⟩⟩
        · exact ⟨_, _, _, _, _,
            init_dev_mismatch m1 d s st1 st2 g1 g2 hi2 lo2 hd1 h1 hb1 h2 hb2 hv,
            init_dev_mismatch m2 d s st1 st2 g1 g2 hi2 lo2 hd2 h1 hb1 h2 hb2 hv, rfl,
            by simp [readEvent], ⟨rfl, rfl, rfl⟩, by simp⟩
    · exact ⟨_, _, _, _, _, init_mfg_mismatch m1 d s st1 g1 hi1 lo1 hd1 h1 hb1 hm,
        init_mfg_mismatch m2 d s st1 g1 hi1 lo1 hd2 h1 hb1 hm, rfl, by simp [readEvent],
        ⟨rfl, rfl, rfl⟩, by simp⟩

theorem init_keeps {σ ε : Type} (m : MCP9808 σ ε) (s s1 : World σ ε) (m1 : MCP9808 σ ε)
    (r : Option (Error ε)) (h : m.init s = some (s1, m1, r)) :
    m1.address = m.address ∧ m1.d = m.d ∧ m1.Temperature = m.Temperature := by
  cases hd : m.d with
  | none =>
    rw [init_unbound m s hd] at h
    cases h
  | some d =>
    obtain ⟨s2, k1, _, r2, _, hk, _, _, _, hkeep, _⟩ := init_pair m m d s hd hd
    rw [hk] at h
    cases h
    rw [← hd]
    exact hkeep

theorem Temp_keeps {σ ε : Type} (m : MCP9808 σ ε) (s s1 : World σ ε) (m1 : MCP9808 σ ε)
    (v : ℚ) (r : Option (Error ε)) (h : m.Temp s = some (s1, m1, v, r)) : m1 = m := by
  cases hd : m.d with
  | none =>
    rw [Temp_unbound m s hd] at h
    cases h
  | some d =>
    rcases htx : d.Bus.Tx s.bus d.Addr [0x05] [0, 0] with ⟨st, err, got⟩
    cases err with
    | some e =>
      rw [Temp_fail m d s st got e hd htx] at h
      cases h
      rfl
    | none =>
      obtain ⟨hi, lo, hrx⟩ := copyBytes_pair 0 0 got
      rw [Temp_ok m d s st got hi lo hd htx hrx] at h
      cases h
      rfl

/-! ## Options and the address `New` binds -/

theorem applyOpts_congr {σ ε : Type}
    (opts1 opts2 : List (MCP9808 σ ε → MCP9808 σ ε × Option (Error ε)))
    (h : opts1.map (fun o m => (o m).1) = opts2.map (fun o m => (o m).1))
    (mcp : MCP9808 σ ε) : applyOpts opts1 mcp = applyOpts opts2 mcp := by
  induction opts1 generalizing opts2 mcp with
  | nil =>
    cases opts2 with
    | nil => rfl
    | cons o2 t2 => simp at h
  | cons o1 t1 ih =>
    cases opts2 with
    | nil => simp at h
    | cons o2 t2 =>
      simp only [List.map_cons, List.cons.injEq] at h
      have ho : (o1 mcp).1 = (o2 mcp).1 := congrFun h.1 mcp
      simp only [applyOpts, ho]
      exact ih t2 h.2 _

theorem applyOpts_append {σ ε : Type}
    (opts1 opts2 : List (MCP9808 σ ε → MCP9808 σ ε × Option (Error ε)))
    (mcp : MCP9808 σ ε) :
    applyOpts (opts1 ++ opts2) mcp = applyOpts opts2 (applyOpts opts1 mcp) := by
  induction opts1 generalizing mcp with
  | nil => rfl
  | cons o t ih => exact ih (o mcp).1

theorem applyOpts_keeps_address {σ ε : Type}
    (opts : List (MCP9808 σ ε → MCP9808 σ ε × Option (Error ε)))
    (h : ∀ o ∈ opts, ∀ m, (o m).1.address = m.address) (mcp : MCP9808 σ ε) :
    (applyOpts opts mcp).address = mcp.address := by
  induction opts generalizing mcp with
  | nil => rfl
  | cons o t ih =>
    simp only [applyOpts]
    rw [ih (fun o1 ho1 => h o1 (List.mem_cons_of_mem _ ho1)), h o (List.mem_cons_self _ _)]

theorem preInit_congr {σ ε : Type} (b : i2c.Bus σ ε)
    (opts1 opts2 : List (MCP9808 σ ε → MCP9808 σ ε × Option (Error ε)))
    (h : opts1.map (fun o m => (o m).1) = opts2.map (fun o m => (o m).1)) :
    preInit b opts1 = preInit b opts2 := by
  simp only [preInit, applyOpts_congr opts1 opts2 h]

/-- Two runs of `New` on the same bus from the same state whose options leave the same
address: same final world, same error, same transactions, all to that address; either
both return no handle or each returns its assembled handle with the identity fields set. -/
theorem New_pair {σ ε : Type} (b : i2c.Bus σ ε)
    (opts1 opts2 : List (MCP9808 σ ε → MCP9808 σ ε × Option (Error ε))) (s : World σ ε)
    (ha : (preInit b opts1).address = (preInit b opts2).address) :
    ∃ s1 h1 h2 r evs, New b opts1 s = some (s1, h1, r) ∧ New b opts2 s = some (s1, h2, r) ∧
      s1.log = s.log ++ evs ∧ (∀ ev ∈ evs, ev.txn.addr = (preInit b opts1).address) ∧
      ((h1 = none ∧ h2 = none ∧ r ≠ none) ∨
       (h1 = some { preInit b opts1 with mfgID := 0x0054, id := 0x0400 } ∧
        h2 = some { preInit b opts2 with mfgID := 0x0054, id := 0x0400 } ∧ r = none)) := by
  have hd1 := preInit_d b opts1
  have hd2 := preInit_d b opts2
  rw [← ha] at hd2
  obtain ⟨s1, k1, k2, r, evs, hk1, hk2, hlog, haddr, _, hok⟩ :=
    init_pair (preInit b opts1) (preInit b opts2) _ s hd1 hd2
  rw [New_eq, New_eq, hk1, hk2]
  cases r with
  | some err => exact ⟨s1, none, none, some err, evs, rfl, rfl, hlog, haddr, Or.inl ⟨rfl, rfl, by simp⟩⟩
  | none =>
    obtain ⟨e1, e2⟩ := hok rfl
    subst e1 e2
    exact ⟨s1, _, _, none, evs, rfl, rfl, hlog, haddr, Or.inr ⟨rfl, rfl, rfl⟩⟩

/-- Every run of `New`: it returns; the transactions it has issued all went to the
address the options left; a returned handle carries that address, is bound to the bus at
that address, and has the `Temperature` the options left. -/
theorem New_run {σ ε : Type} (b : i2c.Bus σ ε)
    (opts : List (MCP9808 σ ε → MCP9808 σ ε × Option (Error ε))) (s : World σ ε) :
    ∃ s1 h r evs, New b opts s = some (s1, h, r) ∧ s1.log = s.log ++ evs ∧
      (∀ ev ∈ evs, ev.txn.addr = (preInit b opts).address) ∧
      ∀ m, h = some m → m.address = (preInit b opts).address ∧
        m.d = some { Bus := b, Addr := (preInit b opts).address } ∧
        m.Temperature = (preInit b opts).Temperature := by
  obtain ⟨s1, h1, _, r, evs, hnew, _, hlog, haddr, hcase⟩ := New_pair b opts opts s rfl
  refine ⟨s1, h1, r, evs, hnew, hlog, haddr, ?_⟩
  intro m hm
  rcases hcase with ⟨hnone, _, _⟩ | ⟨hsome, _, _⟩
  · rw [hnone] at hm
    cases hm
  · rw [hsome] at hm
    cases hm
    exact ⟨rfl, rfl, rfl⟩

/-- On a bound handle `init` returns, and the first transaction it issues is the read of
the manufacturer-ID register at the bound address, with the transport's outcome; every
further transaction goes to the same address. -/
theorem init_first_event {σ ε : Type} (m : MCP9808 σ ε) (d : i2c.Dev σ ε) (s : World σ ε)
    (hd : m.d = some d) :
    ∃ s1 m1 r rest, m.init s = some (s1, m1, r) ∧
      s1.log = s.log ++
        readEvent d.Addr 0x06 (d.Bus.Tx s.bus d.Addr [0x06] [0, 0]).2.1 :: rest ∧
      ∀ ev ∈ rest, ev.txn.addr = d.Addr := by
  rcases h1 : d.Bus.Tx s.bus d.Addr [0x06] [0, 0] with ⟨st1, e1, g1⟩
  cases e1 with
  | some e =>
    exact ⟨_, _, _, [], init_mfg_fail m d s st1 e g1 hd h1, rfl, by simp⟩
  | none =>
    obtain ⟨hi1, lo1, hb1⟩ := copyBytes_pair 0 0 g1
    by_cases hm : word16 hi1 lo1 = 0x0054
    · obtain ⟨rfl, rfl⟩ := (word16_eq_iff hi1 lo1 0x00 0x54).mp hm
      rcases h2 : d.Bus.Tx st1 d.Addr [0x07] [0x00, 0x54] with ⟨st2, e2, g2⟩
      cases e2 with
      | some e =>
        exact ⟨_, _, _, _, init_dev_fail m d s st1 st2 g1 g2 e hd h1 hb1 h2, rfl,
          by simp [readEvent]⟩
      | none =>
        obtain ⟨hi2, lo2, hb2⟩ := copyBytes_pair 0x00 0x54 g2
        by_cases hv : word16 hi2 lo2 = 0x0400
        · obtain ⟨rfl, rfl⟩ := (word16_eq_iff hi2 lo2 0x04 0x00).mp hv
          rcases h3 : d.Bus.Tx st2 d.Addr [0x01, 0x00, 0x00] [] with ⟨st3, e3, g3⟩
          cases e3 with
          | some e =>
            exact ⟨_, _, _, _,
              init_cfg_fail m d s st1 st2 st3 g1 g2 g3 e hd h1 hb1 h2 hb2 h3, rfl,
              by simp [readEvent, writeEvent]⟩
          | none =>
            rcases h4 : d.Bus.Tx st3 d.Addr [0x08, 0x03] [] with ⟨st4, e4, g4⟩
            cases e4 with
            | some e =>
              exact ⟨_, _, _, _,
                init_res_fail m d s st1 st2 st3 st4 g1 g2 g3 g4 e hd h1 hb1 h2 hb2 h3 h4,
                rfl, by simp [readEvent, writeEvent]⟩
            | none =>
              exact ⟨_, _, _, _,
                init_ok m d s st1 st2 st3 st4 g1 g2 g3 g4 hd h1 hb1 h2 hb2 h3 h4,
                rfl, by simp [readEvent, writeEvent]⟩
        · exact ⟨_, _, _, _,
            init_dev_mismatch m d s st1 st2 g1 g2 hi2 lo2 hd h1 hb1 h2 hb2 hv, rfl,
            by simp [readEvent]⟩
    · exact ⟨_, _, _, [], init_mfg_mismatch m d s st1 g1 hi1 lo1 hd h1 hb1 hm, rfl,
        by simp⟩

/-- Every run of `New` whose options leave the address `a`: it returns, its first
transaction is the manufacturer-ID read at `a` with the transport's outcome, every
further transaction goes to `a`, and a returned handle has address `a`, is bound to the
bus at `a` and comes with no error. -/
theorem New_first_event {σ ε : Type} (b : i2c.Bus σ ε)
    (opts : List (MCP9808 σ ε → MCP9808 σ ε × Option (Error ε))) (s : World σ ε)
    (a : Word) (ha : (preInit b opts).address = a) :
    ∃ s1 h r rest, New b opts s = some (s1, h, r) ∧
      s1.log = s.log ++ readEvent a 0x06 (b.Tx s.bus a [0x06] [0, 0]).2.1 :: rest ∧
      (∀ ev ∈ rest, ev.txn.addr = a) ∧
      (∀ m, h = some m → m.address = a ∧ m.d = some { Bus := b, Addr := a } ∧ r = none) := by
  subst ha
  obtain ⟨s1, m1, r, rest, hinit, hlog, haddr⟩ :=
    init_first_event (preInit b opts) _ s (preInit_d b opts)
  have hkeep := init_keeps (preInit b opts) s s1 m1 r hinit
  rw [New_eq, hinit]
  cases r with
  | some err =>
    refine ⟨s1, none, some err, rest, rfl, hlog, haddr, ?_⟩
    intro m hm
    cases hm
  | none =>
    refine ⟨s1, some m1, none, rest, rfl, hlog, haddr, ?_⟩
    intro m hm
    cases hm
    exact ⟨hkeep.1, by rw [hkeep.2.1, preInit_d], rfl⟩

/-- A run of `New` whose options leave the address `a`, on a bus that answers the four
construction transactions at `a` without error and with the right identity: `New` returns
the assembled handle with both identity fields set, no error, and the log has grown by
exactly the four transactions at `a`. -/
theorem New_ok_at {σ ε : Type} (b : i2c.Bus σ ε)
    (opts : List (MCP9808 σ ε → MCP9808 σ ε × Option (Error ε))) (s : World σ ε)
    (a : Word) (ha : (preInit b opts).address = a)
    (st1 st2 st3 st4 : σ) (g1 g2 g3 g4 : List Byte)
    (h1 : b.Tx s.bus a [0x06] [0, 0] = (st1, none, g1))
    (hb1 : copyBytes [0, 0] g1 = [0x00, 0x54])
    (h2 : b.Tx st1 a [0x07] [0x00, 0x54] = (st2, none, g2))
    (hb2 : copyBytes [0x00, 0x54] g2 = [0x04, 0x00])
    (h3 : b.Tx st2 a [0x01, 0x00, 0x00] [] = (st3, none, g3))
    (h4 : b.Tx st3 a [0x08, 0x03] [] = (st4, none, g4)) :
    New b opts s =
      some (⟨st4, s.log ++ [readEvent a 0x06 none, readEvent a 0x07 none,
          writeEvent a [0x01, 0x00, 0x00] none, writeEvent a [0x08, 0x03] none]⟩,
        some { preInit b opts with mfgID := 0x0054, id := 0x0400 }, none) := by
  subst ha
  rw [New_eq, init_ok (preInit b opts) _ s st1 st2 st3 st4 g1 g2 g3 g4 (preInit_d b opts)
    h1 hb1 h2 hb2 h3 h4]

theorem preInit_Address_address {σ ε : Type} (b : i2c.Bus σ ε) (a : Word)
    (pre post : List (MCP9808 σ ε → MCP9808 σ ε × Option (Error ε)))
    (hpost : ∀ o ∈ post, ∀ m, (o m).1.address = m.address) :
    (preInit b (pre ++ [Address a] ++ post)).address = a := by
  simp only [preInit, applyOpts_append]
  rw [applyOpts_keeps_address post hpost]
  rfl

/-! ## The claims on the bus address and the options -/

/-- C12: `New` with no options always starts with the manufacturer-ID read at address
`0x18`, sends every further transaction to `0x18`, and binds a handle it returns to the bus
at `0x18`; when the device at `0x18` answers the construction sequence, `New` returns the
handle with address `0x18`, bound at `0x18`, after exactly the four transactions at `0x18`.
With the single option `Address a` the same holds with `a`.  On a bound handle `init` and
`Temp` return and leave the address and the binding as they were (on any handle, whenever
they return), and the transaction of `Temp` goes to the bound address. -/
theorem New_binds_address {σ ε : Type} (b : i2c.Bus σ ε) (a : Word) (s : World σ ε) :
    (∃ s1 h r rest, New b [] s = some (s1, h, r) ∧
        s1.log = s.log ++
          readEvent 0x18 0x06 (b.Tx s.bus 0x18 [0x06] [0, 0]).2.1 :: rest ∧
        (∀ ev ∈ rest, ev.txn.addr = 0x18) ∧
        ∀ m, h = some m → m.address = 0x18 ∧ m.d = some { Bus := b, Addr := 0x18 }) ∧
    (∀ (st1 st2 st3 st4 : σ) (g1 g2 g3 g4 : List Byte),
        b.Tx s.bus 0x18 [0x06] [0, 0] = (st1, none, g1) →
        copyBytes [0, 0] g1 = [0x00, 0x54] →
        b.Tx st1 0x18 [0x07] [0x00, 0x54] = (st2, none, g2) →
        copyBytes [0x00, 0x54] g2 = [0x04, 0x00] →
        b.Tx st2 0x18 [0x01, 0x00, 0x00] [] = (st3, none, g3) →
        b.Tx st3 0x18 [0x08, 0x03] [] = (st4, none, g4) →
        New b [] s =
          some (⟨st4, s.log ++ [readEvent 0x18 0x06 none, readEvent 0x18 0x07 none,
              writeEvent 0x18 [0x01, 0x00, 0x00] none, writeEvent 0x18 [0x08, 0x03] none]⟩,
            some { address := 0x18, d := some { Bus := b, Addr := 0x18 }, mfgID := 0x0054,
                   id := 0x0400, Temperature := 0 }, none)) ∧
    (∃ s1 h r rest, New b [Address a] s = some (s1, h, r) ∧
        s1.log = s.log ++ readEvent a 0x06 (b.Tx s.bus a [0x06] [0, 0]).2.1 :: rest ∧
        (∀ ev ∈ rest, ev.txn.addr = a) ∧
        ∀ m, h = some m → m.address = a ∧ m.d = some { Bus := b, Addr := a }) ∧
    (∀ (st1 st2 st3 st4 : σ) (g1 g2 g3 g4 : List Byte),
        b.Tx s.bus a [0x06] [0, 0] = (st1, none, g1) →
        copyBytes [0, 0] g1 = [0x00, 0x54] →
        b.Tx st1 a [0x07] [0x00, 0x54] = (st2, none, g2) →
        copyBytes [0x00, 0x54] g2 = [0x04, 0x00] →
        b.Tx st2 a [0x01, 0x00, 0x00] [] = (st3, none, g3) →
        b.Tx st3 a [0x08, 0x03] [] = (st4, none, g4) →
        New b [Address a] s =
          some (⟨st4, s.log ++ [readEvent a 0x06 none, readEvent a 0x07 none,
              writeEvent a [0x01, 0x00, 0x00] none, writeEvent a [0x08, 0x03] none]⟩,
            some { address := a, d := some { Bus := b, Addr := a }, mfgID := 0x0054,
                   id := 0x0400, Temperature := 0 }, none)) ∧
    (∀ (m : MCP9808 σ ε) (s0 s1 : World σ ε) (m1 : MCP9808 σ ε) (r : Option (Error ε)),
        m.init s0 = some (s1, m1, r) → m1.address = m.address ∧ m1.d = m.d) ∧
    (∀ (m : MCP9808 σ ε) (d : i2c.Dev σ ε) (s0 : World σ ε), m.d = some d →
        ∃ s1 m1 r, m.init s0 = some (s1, m1, r) ∧ m1.address = m.address ∧ m1.d = m.d) ∧
    (∀ (m : MCP9808 σ ε) (s0 s1 : World σ ε) (m1 : MCP9808 σ ε) (v : ℚ)
        (r : Option (Error ε)),
        m.Temp s0 = some (s1, m1, v, r) → m1.address = m.address ∧ m1.d = m.d) ∧
    (∀ (m : MCP9808 σ ε) (d : i2c.Dev σ ε) (s0 : World σ ε), m.d = some d →
        ∃ s1 v r e, m.Temp s0 = some (s1, m, v, r) ∧
          s1.log = s0.log ++ [readEvent d.Addr 0x05 e]) := by
  refine ⟨?_, ?_, ?_, ?_, ?_, ?_, ?_, ?_⟩
  · obtain ⟨s1, h, r, rest, hnew, hlog, haddr, hh⟩ := New_first_event b [] s 0x18 rfl
    exact ⟨s1, h, r, rest, hnew, hlog, haddr, fun m hm => ⟨(hh m hm).1, (hh m hm).2.1⟩⟩
  · intro st1 st2 st3 st4 g1 g2 g3 g4 h1 hb1 h2 hb2 h3 h4
    rw [New_ok_at b [] s 0x18 rfl st1 st2 st3 st4 g1 g2 g3 g4 h1 hb1 h2 hb2 h3 h4]
    rfl
  · obtain ⟨s1, h, r, rest, hnew, hlog, haddr, hh⟩ := New_first_event b [Address a] s a rfl
    exact ⟨s1, h, r, rest, hnew, hlog, haddr, fun m hm => ⟨(hh m hm).1, (hh m hm).2.1⟩⟩
  · intro st1 st2 st3 st4 g1 g2 g3 g4 h1 hb1 h2 hb2 h3 h4
    rw [New_ok_at b [Address a] s a rfl st1 st2 st3 st4 g1 g2 g3 g4 h1 hb1 h2 hb2 h3 h4]
    rfl
  · intro m s0 s1 m1 r h
    exact ⟨(init_keeps m s0 s1 m1 r h).1, (init_keeps m s0 s1 m1 r h).2.1⟩
  · intro m d s0 hd
    obtain ⟨s1, m1, r, _, hinit, _, _⟩ := init_first_event m d s0 hd
    exact ⟨s1, m1, r, hinit, (init_keeps m s0 s1 m1 r hinit).1,
      (init_keeps m s0 s1 m1 r hinit).2.1⟩
  · intro m s0 s1 m1 v r h
    rw [Temp_keeps m s0 s1 m1 v r h]
    exact ⟨rfl, rfl⟩
  · intro m d s0 hd
    rcases htx : d.Bus.Tx s0.bus d.Addr [0x05] [0, 0] with ⟨st, err, got⟩
    cases err with
    | some e => exact ⟨_, _, _, _, Temp_fail m d s0 st got e hd htx, rfl⟩
    | none =>
      obtain ⟨hi, lo, hrx⟩ := copyBytes_pair 0 0 got
      exact ⟨_, _, _, _, Temp_ok m d s0 st got hi lo hd htx hrx, rfl⟩

/-- C12 at concrete runs: `New` with `Address 0x19` on a simulated device that answers
the whole construction sequence returns the handle bound at `0x19`, and `Temp` on a handle
bound at `0x18` sends its read to `0x18`. -/
theorem New_binds_address_witness :
    New scriptBus [Address 0x19]
        ⟨[(none, [0x00, 0x54]), (none, [0x04, 0x00]), (none, []), (none, [])], []⟩ =
      some (⟨[], [] ++ [readEvent 0x19 0x06 none, readEvent 0x19 0x07 none,
          writeEvent 0x19 [0x01, 0x00, 0x00] none, writeEvent 0x19 [0x08, 0x03] none]⟩,
        some { address := 0x19, d := some { Bus := scriptBus, Addr := 0x19 },
               mfgID := 0x0054, id := 0x0400, Temperature := 0 }, none) ∧
    (∃ s1 v r e, simHandle.Temp ⟨[(none, [0x01, 0x90])], []⟩ = some (s1, simHandle, v, r) ∧
        s1.log = [] ++ [readEvent 0x18 0x05 e]) :=
  ⟨(New_binds_address scriptBus 0x19
      ⟨[(none, [0x00, 0x54]), (none, [0x04, 0x00]), (none, []), (none, [])], []⟩).2.2.2.1
      [(none, [0x04, 0x00]), (none, []), (none, [])] [(none, []), (none, [])] [(none, [])] []
      [0x00, 0x54] [0x04, 0x00] [] [] rfl (by decide) rfl (by decide) rfl rfl,
   (New_binds_address scriptBus 0x19
      ⟨[(none, [0x00, 0x54]), (none, [0x04, 0x00]), (none, []), (none, [])], []⟩).2.2.2.2.2.2.2
      simHandle { Bus := scriptBus, Addr := 0x18 } ⟨[(none, [0x01, 0x90])], []⟩ rfl⟩

/-- C15: when the manufacturer-ID read succeeds with a value other than `0x0054`, `New`
fails with the identity-mismatch error after exactly one transaction, the read of register
`0x06`: the device-ID register is not read and nothing is written.  When the manufacturer
ID matches and the device-ID read succeeds with a value other than `0x0400`, `New` fails
after exactly the two identity reads. -/
theorem New_aborts_at_first_mismatch {σ ε : Type} (b : i2c.Bus σ ε)
    (opts : List (MCP9808 σ ε → MCP9808 σ ε × Option (Error ε))) (s : World σ ε)
    (st1 : σ) (g1 : List Byte) (hi1 lo1 : Byte)
    (h1 : b.Tx s.bus (preInit b opts).address [0x06] [0, 0] = (st1, none, g1))
    (hb1 : copyBytes [0, 0] g1 = [hi1, lo1]) :
    (word16 hi1 lo1 ≠ 0x0054 →
      New b opts s = some (⟨st1, s.log ++ [readEvent (preInit b opts).address 0x06 none]⟩,
        none, some Error.partDoesNotMatchDriver)) ∧
    (word16 hi1 lo1 = 0x0054 →
      ∀ (st2 : σ) (g2 : List Byte) (hi2 lo2 : Byte),
        b.Tx st1 (preInit b opts).address [0x07] [hi1, lo1] = (st2, none, g2) →
        copyBytes [hi1, lo1] g2 = [hi2, lo2] → word16 hi2 lo2 ≠ 0x0400 →
        New b opts s = some (⟨st2, s.log ++
          [readEvent (preInit b opts).address 0x06 none,
           readEvent (preInit b opts).address 0x07 none]⟩,
          none, some Error.partDoesNotMatchDriver)) := by
  constructor
  · intro hne
    rw [New_eq, init_mfg_mismatch (preInit b opts) _ s st1 g1 hi1 lo1 (preInit_d b opts)
      h1 hb1 hne]
  · intro hm st2 g2 hi2 lo2 h2 hb2 hne
    obtain ⟨rfl, rfl⟩ := (word16_eq_iff hi1 lo1 0x00 0x54).mp hm
    rw [New_eq, init_dev_mismatch (preInit b opts) _ s st1 st2 g1 g2 hi2 lo2
      (preInit_d b opts) h1 hb1 h2 hb2 hne]

/-- C15 at concrete runs: a simulated device with manufacturer ID `0x0055`, and one with
the right manufacturer ID and device ID `0x0401`. -/
theorem New_aborts_at_first_mismatch_witness :
    New scriptBus [] ⟨[(none, [0x00, 0x55]), (none, [0x04, 0x00])], []⟩ =
      some (⟨[(none, [0x04, 0x00])], [] ++ [readEvent 0x18 0x06 none]⟩,
        none, some Error.partDoesNotMatchDriver) ∧
    New scriptBus [] ⟨[(none, [0x00, 0x54]), (none, [0x04, 0x01])], []⟩ =
      some (⟨[], [] ++ [readEvent 0x18 0x06 none, readEvent 0x18 0x07 none]⟩,
        none, some Error.partDoesNotMatchDriver) :=
  ⟨(New_aborts_at_first_mismatch scriptBus []
      ⟨[(none, [0x00, 0x55]), (none, [0x04, 0x00])], []⟩ [(none, [0x04, 0x00])]
      [0x00, 0x55] 0x00 0x55 rfl (by decide)).1 (by decide),
   (New_aborts_at_first_mismatch scriptBus []
      ⟨[(none, [0x00, 0x54]), (none, [0x04, 0x01])], []⟩ [(none, [0x04, 0x01])]
      [0x00, 0x54] 0x00 0x54 rfl (by decide)).2 (by decide) [] [0x04, 0x01] 0x04 0x01
      rfl (by decide) (by decide)⟩

/-- C16 fails as stated: `New` with the option `Address 0x3FF` on a simulated device of
the right identity returns a handle whose address is `0x3FF`, not below `0x80`. -/
theorem New_accepts_address_0x3FF :
    ∃ s1 m, New scriptBus [Address 0x3FF]
        ⟨[(none, [0x00, 0x54]), (none, [0x04, 0x00]), (none, []), (none, [])], []⟩ =
        some (s1, some m, none) ∧
      m.address = 0x3FF ∧ ¬ m.address.val < 0x80 := by
  have h := init_ok (preInit scriptBus [Address 0x3FF]) { Bus := scriptBus, Addr := 0x3FF }
    ⟨[(none, [0x00, 0x54]), (none, [0x04, 0x00]), (none, []), (none, [])], []⟩
    [(none, [0x04, 0x00]), (none, []), (none, [])] [(none, []), (none, [])] [(none, [])] []
    [0x00, 0x54] [0x04, 0x00] [] [] rfl rfl (by decide) rfl (by decide) rfl rfl
  rw [New_eq, h]
  exact ⟨_, _, rfl, rfl, by decide⟩

/-- C16 as amended: the address of every handle `New` returns is the 16-bit address the
options left in the handle, with no 7-bit check: `0x18`, which is below `0x80`, when no
option is passed, and `a` itself, whatever its size, for the single option `Address a`. -/
theorem New_handle_address {σ ε : Type} (b : i2c.Bus σ ε)
    (opts : List (MCP9808 σ ε → MCP9808 σ ε × Option (Error ε))) (s s1 : World σ ε)
    (m : MCP9808 σ ε) (r : Option (Error ε)) (h : New b opts s = some (s1, some m, r)) :
    m.address = (preInit b opts).address ∧ m.address.val < 0x10000 ∧
      (opts = [] → m.address = 0x18 ∧ m.address.val < 0x80) ∧
      (∀ a, opts = [Address a] → m.address = a ∧ (m.address.val < 0x80 ↔ a.val < 0x80)) := by
  obtain ⟨s2, h2, r2, _, hnew, _, _, hh⟩ := New_run b opts s
  rw [hnew] at h
  cases h
  have ha := (hh m rfl).1
  refine ⟨ha, m.address.isLt, ?_, ?_⟩
  · intro ho
    subst ho
    have h18 : (preInit b []).address = 0x18 := rfl
    rw [ha, h18]
    exact ⟨rfl, by decide⟩
  · intro a ho
    subst ho
    rw [ha]
    exact ⟨rfl, Iff.rfl⟩

/-- C16 as amended, at a concrete run: no options, simulated device of the right
identity. -/
theorem New_handle_address_witness :
    ∃ s1 m, New scriptBus []
        ⟨[(none, [0x00, 0x54]), (none, [0x04, 0x00]), (none, []), (none, [])], []⟩ =
        some (s1, some m, none) ∧
      m.address = (preInit scriptBus []).address ∧ m.address.val < 0x10000 ∧
      (([] : List (MCP9808 (List (Option Nat × List Byte)) Nat →
          MCP9808 (List (Option Nat × List Byte)) Nat × Option (Error Nat))) = [] →
        m.address = 0x18 ∧ m.address.val < 0x80) :=
  have h := init_ok (preInit scriptBus []) { Bus := scriptBus, Addr := 0x18 }
    ⟨[(none, [0x00, 0x54]), (none, [0x04, 0x00]), (none, []), (none, [])], []⟩
    [(none, [0x04, 0x00]), (none, []), (none, [])] [(none, []), (none, [])] [(none, [])] []
    [0x00, 0x54] [0x04, 0x00] [] [] rfl rfl (by decide) rfl (by decide) rfl rfl
  have hnew : New scriptBus []
      ⟨[(none, [0x00, 0x54]), (none, [0x04, 0x00]), (none, []), (none, [])], []⟩ =
      some (_, some { preInit scriptBus [] with mfgID := 0x0054, id := 0x0400 }, none) := by
    rw [New_eq, h]
  have hthm := New_handle_address scriptBus [] _ _ _ none hnew
  ⟨_, _, hnew, hthm.1, hthm.2.1, hthm.2.2.1⟩

/-- C19 fails as stated: on the same simulated device, `New` with no options and `New`
with the caller-written option `setTemperature 5` bind the same address `0x18` and see
the same replies, yet the handles they return differ: `Temperature` is 0 in one and 5 in
the other. -/
theorem New_outcome_differs_on_Temperature :
    (preInit scriptBus []).address = (preInit scriptBus [setTemperature 5]).address ∧
    (∃ s1 m1 m2,
      New scriptBus []
          ⟨[(none, [0x00, 0x54]), (none, [0x04, 0x00]), (none, []), (none, [])], []⟩ =
        some (s1, some m1, none) ∧
      New scriptBus [setTemperature 5]
          ⟨[(none, [0x00, 0x54]), (none, [0x04, 0x00]), (none, []), (none, [])], []⟩ =
        some (s1, some m2, none) ∧
      m1.Temperature = 0 ∧ m2.Temperature = 5) ∧
    New scriptBus []
        ⟨[(none, [0x00, 0x54]), (none, [0x04, 0x00]), (none, []), (none, [])], []⟩ ≠
      New scriptBus [setTemperature 5]
        ⟨[(none, [0x00, 0x54]), (none, [0x04, 0x00]), (none, []), (none, [])], []⟩ := by
  have h1 := init_ok (preInit scriptBus []) { Bus := scriptBus, Addr := 0x18 }
    ⟨[(none, [0x00, 0x54]), (none, [0x04, 0x00]), (none, []), (none, [])], []⟩
    [(none, [0x04, 0x00]), (none, []), (none, [])] [(none, []), (none, [])] [(none, [])] []
    [0x00, 0x54] [0x04, 0x00] [] [] rfl rfl (by decide) rfl (by decide) rfl rfl
  have h2 := init_ok (preInit scriptBus [setTemperature 5]) { Bus := scriptBus, Addr := 0x18 }
    ⟨[(none, [0x00, 0x54]), (none, [0x04, 0x00]), (none, []), (none, [])], []⟩
    [(none, [0x04, 0x00]), (none, []), (none, [])] [(none, []), (none, [])] [(none, [])] []
    [0x00, 0x54] [0x04, 0x00] [] [] rfl rfl (by decide) rfl (by decide) rfl rfl
  refine ⟨rfl, ?_, ?_⟩
  · rw [New_eq, New_eq, h1, h2]
    exact ⟨_, _, _, rfl, rfl, rfl, rfl⟩
  · rw [New_eq, New_eq, h1, h2]
    intro h
    have ht := congrArg
      (fun x : Option (World (List (Option Nat × List Byte)) Nat ×
          Option (MCP9808 (List (Option Nat × List Byte)) Nat) × Option (Error Nat)) =>
        x.map fun y => y.2.1.map fun m => m.Temperature) h
    simp [preInit, applyOpts, setTemperature, MCP9808.zero] at ht

/-- C19 as amended: the errors options return have no effect on `New`, so an option
returning a non-nil error does not make construction fail: with such options in the list
and a device that answers, `New` returns a handle and no error.  Options apply in order:
`New` sends its first and every further transaction to the address of the last `Address`
option (no later option changing the address) and a handle it returns has that address
and is bound to the bus at it.  Everything `New` yields except the returned handle's
`Temperature` depends only on that final address and on the transport's replies, and the
returned handle's `Temperature` is the value the options left in it. -/
theorem New_discards_option_errors {σ ε : Type} (b : i2c.Bus σ ε) (s : World σ ε) :
    (∀ opts1 opts2 : List (MCP9808 σ ε → MCP9808 σ ε × Option (Error ε)),
      opts1.map (fun o m => (o m).1) = opts2.map (fun o m => (o m).1) →
      New b opts1 s = New b opts2 s) ∧
    (∀ (e : Error ε) (pre post : List (MCP9808 σ ε → MCP9808 σ ε × Option (Error ε))),
      New b (pre ++ [failingOption e] ++ post) s = New b (pre ++ post) s) ∧
    (∀ (a : Word) (pre post : List (MCP9808 σ ε → MCP9808 σ ε × Option (Error ε))),
      (∀ o ∈ post, ∀ m, (o m).1.address = m.address) →
      (preInit b (pre ++ [Address a] ++ post)).address = a ∧
      (preInit b (pre ++ [Address a] ++ post)).d = some { Bus := b, Addr := a }) ∧
    (∀ (a : Word) (pre post : List (MCP9808 σ ε → MCP9808 σ ε × Option (Error ε))),
      (∀ o ∈ post, ∀ m, (o m).1.address = m.address) →
      ∃ s1 h r rest, New b (pre ++ [Address a] ++ post) s = some (s1, h, r) ∧
        s1.log = s.log ++ readEvent a 0x06 (b.Tx s.bus a [0x06] [0, 0]).2.1 :: rest ∧
        (∀ ev ∈ rest, ev.txn.addr = a) ∧
        ∀ m, h = some m →
          m.address = a ∧ m.d = some { Bus := b, Addr := a } ∧ r = none) ∧
    (∀ (a : Word) (pre post : List (MCP9808 σ ε → MCP9808 σ ε × Option (Error ε)))
      (st1 st2 st3 st4 : σ) (g1 g2 g3 g4 : List Byte),
      (∀ o ∈ post, ∀ m, (o m).1.address = m.address) →
      b.Tx s.bus a [0x06] [0, 0] = (st1, none, g1) →
      copyBytes [0, 0] g1 = [0x00, 0x54] →
      b.Tx st1 a [0x07] [0x00, 0x54] = (st2, none, g2) →
      copyBytes [0x00, 0x54] g2 = [0x04, 0x00] →
      b.Tx st2 a [0x01, 0x00, 0x00] [] = (st3, none, g3) →
      b.Tx st3 a [0x08, 0x03] [] = (st4, none, g4) →
      ∃ m, New b (pre ++ [Address a] ++ post) s =
          some (⟨st4, s.log ++ [readEvent a 0x06 none, readEvent a 0x07 none,
              writeEvent a [0x01, 0x00, 0x00] none, writeEvent a [0x08, 0x03] none]⟩,
            some m, none) ∧
        m.address = a ∧ m.d = some { Bus := b, Addr := a } ∧
        m.mfgID = 0x0054 ∧ m.id = 0x0400) ∧
    (∀ (opts : List (MCP9808 σ ε → MCP9808 σ ε × Option (Error ε))) (a : Word)
      (st1 st2 st3 st4 : σ) (g1 g2 g3 g4 : List Byte),
      (preInit b opts).address = a →
      b.Tx s.bus a [0x06] [0, 0] = (st1, none, g1) →
      copyBytes [0, 0] g1 = [0x00, 0x54] →
      b.Tx st1 a [0x07] [0x00, 0x54] = (st2, none, g2) →
      copyBytes [0x00, 0x54] g2 = [0x04, 0x00] →
      b.Tx st2 a [0x01, 0x00, 0x00] [] = (st3, none, g3) →
      b.Tx st3 a [0x08, 0x03] [] = (st4, none, g4) →
      ∃ m, New b opts s =
          some (⟨st4, s.log ++ [readEvent a 0x06 none, readEvent a 0x07 none,
              writeEvent a [0x01, 0x00, 0x00] none, writeEvent a [0x08, 0x03] none]⟩,
            some m, none) ∧
        m.address = a ∧ m.d = some { Bus := b, Addr := a }) ∧
    (∀ opts1 opts2 : List (MCP9808 σ ε → MCP9808 σ ε × Option (Error ε)),
      (preInit b opts1).address = (preInit b opts2).address →
      sansTemperature (New b opts1 s) = sansTemperature (New b opts2 s)) ∧
    (∀ opts1 opts2 : List (MCP9808 σ ε → MCP9808 σ ε × Option (Error ε)),
      (preInit b opts1).address = (preInit b opts2).address →
      (preInit b opts1).Temperature = (preInit b opts2).Temperature →
      New b opts1 s = New b opts2 s) ∧
    (∀ (opts : List (MCP9808 σ ε → MCP9808 σ ε × Option (Error ε))) (s1 : World σ ε)
      (m : MCP9808 σ ε) (r : Option (Error ε)),
      New b opts s = some (s1, some m, r) →
      m.Temperature = (preInit b opts).Temperature) := by
  refine ⟨?_, ?_, ?_, ?_, ?_, ?_, ?_, ?_, ?_⟩
  · intro opts1 opts2 h
    rw [New_eq, New_eq, preInit_congr b opts1 opts2 h]
  · intro e pre post
    have hp : preInit b (pre ++ [failingOption e] ++ post) = preInit b (pre ++ post) := by
      simp only [preInit, applyOpts_append, applyOpts, failingOption]
    rw [New_eq, New_eq, hp]
  · intro a pre post hpost
    have ha := preInit_Address_address b a pre post hpost
    refine ⟨ha, ?_⟩
    rw [preInit_d, ha]
  · intro a pre post hpost
    exact New_first_event b (pre ++ [Address a] ++ post) s a
      (preInit_Address_address b a pre post hpost)
  · intro a pre post st1 st2 st3 st4 g1 g2 g3 g4 hpost h1 hb1 h2 hb2 h3 h4
    have ha := preInit_Address_address b a pre post hpost
    refine ⟨_, New_ok_at b (pre ++ [Address a] ++ post) s a ha st1 st2 st3 st4 g1 g2 g3 g4
      h1 hb1 h2 hb2 h3 h4, ha, ?_, rfl, rfl⟩
    show (preInit b (pre ++ [Address a] ++ post)).d = _
    rw [preInit_d, ha]
  · intro opts a st1 st2 st3 st4 g1 g2 g3 g4 ha h1 hb1 h2 hb2 h3 h4
    refine ⟨_, New_ok_at b opts s a ha st1 st2 st3 st4 g1 g2 g3 g4 h1 hb1 h2 hb2 h3 h4,
      ha, ?_⟩
    show (preInit b opts).d = _
    rw [preInit_d, ha]
  · intro opts1 opts2 ha
    obtain ⟨s1, h1, h2, r, _, hn1, hn2, _, _, hcase⟩ := New_pair b opts1 opts2 s ha
    rw [hn1, hn2]
    rcases hcase with ⟨e1, e2, _⟩ | ⟨e1, e2, _⟩
    · rw [e1, e2]
    · rw [e1, e2]
      have hd : (preInit b opts1).d = (preInit b opts2).d := by
        rw [preInit_d, preInit_d, ha]
      simp only [sansTemperature, Option.map_some', ha, hd]
  · intro opts1 opts2 ha hT
    obtain ⟨s1, h1, h2, r, _, hn1, hn2, _, _, hcase⟩ := New_pair b opts1 opts2 s ha
    rw [hn1, hn2]
    rcases hcase with ⟨e1, e2, _⟩ | ⟨e1, e2, _⟩
    · rw [e1, e2]
    · rw [e1, e2]
      have hd : (preInit b opts1).d = (preInit b opts2).d := by
        rw [preInit_d, preInit_d, ha]
      simp only [ha, hd, hT]
  · intro opts s1 m r h
    obtain ⟨s2, h2, r2, _, hnew, _, _, hh⟩ := New_run b opts s
    rw [hnew] at h
    cases h
    exact (hh m rfl).2.2

/-- C19 as amended, at concrete runs on a simulated device that answers the whole
construction sequence.  With an option returning the error `transport 9` first, then
`Address 0x20`, `Address 0x19` and another failing option, `New` succeeds: it returns a
handle bound at `0x19` and no error after the four transactions at `0x19`.  Two option
lists that both end at `0x19`, one of them with the failing option, give the same result. -/
theorem New_discards_option_errors_witness :
    (∃ m, New scriptBus
          ([failingOption (Error.transport 9), Address 0x20] ++ [Address 0x19] ++
            [failingOption Error.partDoesNotMatchDriver])
          ⟨[(none, [0x00, 0x54]), (none, [0x04, 0x00]), (none, []), (none, [])], []⟩ =
        some (⟨[], [] ++ [readEvent 0x19 0x06 none, readEvent 0x19 0x07 none,
            writeEvent 0x19 [0x01, 0x00, 0x00] none, writeEvent 0x19 [0x08, 0x03] none]⟩,
          some m, none) ∧
      m.address = 0x19 ∧ m.d = some { Bus := scriptBus, Addr := 0x19 } ∧
      m.mfgID = 0x0054 ∧ m.id = 0x0400) ∧
    New scriptBus [Address 0x20, Address 0x19]
        ⟨[(none, [0x00, 0x54]), (none, [0x04, 0x00]), (none, []), (none, [])], []⟩ =
      New scriptBus [failingOption (Error.transport 9), Address 0x19]
        ⟨[(none, [0x00, 0x54]), (none, [0x04, 0x00]), (none, []), (none, [])], []⟩ :=
  ⟨(New_discards_option_errors scriptBus
      ⟨[(none, [0x00, 0x54]), (none, [0x04, 0x00]), (none, []), (none, [])], []⟩).2.2.2.2.1
      0x19 [failingOption (Error.transport 9), Address 0x20]
      [failingOption Error.partDoesNotMatchDriver]
      [(none, [0x04, 0x00]), (none, []), (none, [])] [(none, []), (none, [])] [(none, [])] []
      [0x00, 0x54] [0x04, 0x00] [] []
      (fun o ho m => by
        simp only [List.mem_singleton] at ho
        subst ho
        rfl)
      rfl (by decide) rfl (by decide) rfl rfl,
   (New_discards_option_errors scriptBus
      ⟨[(none, [0x00, 0x54]), (none, [0x04, 0x00]), (none, []), (none, [])], []⟩).2.2.2.2.2.2.2.1
      [Address 0x20, Address 0x19]
      [failingOption (Error.transport 9), Address 0x19] rfl rfl⟩

end mcp9808
